import Mathlib

/-
  Verification of the myhome.ge ingestion pipeline
  (real_estate_deployment, back-end/scraper).

  Shallow embedding of the scraper code:
  - raw API payloads are JSON-like values (JVal);
  - Python floats are exact rationals plus signed infinities (PyFloat);
  - fallible Python operations run in an Except monad over PyErr;
  - the persistence store is an explicit record of table rows.

  Modelling notes, stated once here:
  - CPython float strings may contain digit-group underscores and the
    literals inf and nan; those are not modelled (no claim depends on
    them).  Finite float values are kept exact (no double rounding);
    overflow to infinity at magnitude 2^1024 is modelled because the
    OverflowError raised by int() on an infinite float is not caught
    by the safe conversion helpers.
  - str.lower and str.isdigit are modelled on ASCII; the Georgian and
    Cyrillic strings appearing in the code are already lowercase.
-/

set_option maxRecDepth 100000

namespace RealEstate

/-- JSON-like values as handed to the scraper by the upstream API and
    threaded through the Python code (dicts are association lists). -/
inductive JVal : Type
  | null : JVal
  | bool : Bool → JVal
  | int : ℤ → JVal
  | num : ℚ → JVal
  | str : String → JVal
  | list : List JVal → JVal
  | dict : List (String × JVal) → JVal

/-- Python exception classes that the embedded code can raise. -/
inductive PyErr : Type
  | valueError
  | typeError
  | attributeError
  | overflowError
  | dbError
deriving DecidableEq, Repr

/-- A Python float: a finite (exact) value or a signed infinity. -/
inductive PyFloat : Type
  | finite : ℚ → PyFloat
  | pinf
  | ninf
deriving DecidableEq, Repr

/-- Python truthiness of a value. -/
def JVal.truthy : JVal → Bool
  | .null => false
  | .bool b => b
  | .int n => n ≠ 0
  | .num q => q ≠ 0
  | .str s => s ≠ ""
  | .list xs => ¬ xs.isEmpty
  | .dict kvs => ¬ kvs.isEmpty

/-- dict.get with a default, on an association list. -/
def dictGet (kvs : List (String × JVal)) (k : String) (dflt : JVal) : JVal :=
  match kvs.find? (fun kv => kv.1 == k) with
  | some kv => kv.2
  | none => dflt

/-- raw.get(k, default) where raw is known to be a dict. -/
def JVal.get (v : JVal) (k : String) (dflt : JVal) : JVal :=
  match v with
  | .dict kvs => dictGet kvs k dflt
  | _ => dflt

/-- value.get(k, default) on a value that may not be a dict: Python
    raises AttributeError when the receiver has no get method. -/
def pyGetOnAny (v : JVal) (k : String) (dflt : JVal) : Except PyErr JVal :=
  match v with
  | .dict kvs => .ok (dictGet kvs k dflt)
  | _ => .error .attributeError

/-- Decimal digit string of a natural number. -/
def natDigits (n : ℕ) : String := toString n

/-- str() of a value (the cases exercised by the scraper; the repr of a
    non-integral float is approximated by num/den, used consistently). -/
def pyStr : JVal → String
  | .null => "None"
  | .bool b => if b then "True" else "False"
  | .int n => toString n
  | .num q =>
      if q.den = 1 then
        let n := q.num
        toString n ++ ".0"
      else
        let n := q.num
        let d := q.den
        toString n ++ "/" ++ toString d
  | .str s => s
  | .list _ => "[...]"
  | .dict _ => "{...}"

/-- Leading decimal digits of a character list, and the rest. -/
def takeDigits : List Char → List Char × List Char
  | [] => ([], [])
  | c :: rest =>
      if c.isDigit then
        let p := takeDigits rest
        (c :: p.1, p.2)
      else ([], c :: rest)

/-- Numeric value of a list of decimal digit characters. -/
def digitsVal (ds : List Char) : ℕ :=
  ds.foldl (fun acc c => acc * 10 + (c.toNat - 48)) 0

/-- Mantissa of a float literal: digits, optionally a dot and more
    digits; at least one digit overall.  Returns the value and rest. -/
def parseMantissa (cs : List Char) : Option (ℚ × List Char) :=
  let p := takeDigits cs
  match p.2 with
  | '.' :: r2 =>
      let f := takeDigits r2
      if p.1.isEmpty ∧ f.1.isEmpty then none
      else some ((digitsVal p.1 : ℚ) + (digitsVal f.1 : ℚ) / ((10 : ℚ) ^ f.1.length), f.2)
  | r1 =>
      if p.1.isEmpty then none
      else some ((digitsVal p.1 : ℚ), r1)

/-- Optional exponent suffix of a float literal; the whole rest must be
    consumed. -/
def parseExponent (q : ℚ) (cs : List Char) : Option ℚ :=
  match cs with
  | [] => some q
  | e :: r1 =>
      if e = 'e' ∨ e = 'E' then
        let signed : Bool × List Char :=
          match r1 with
          | '-' :: r2 => (true, r2)
          | '+' :: r2 => (false, r2)
          | r2 => (false, r2)
        let d := takeDigits signed.2
        if d.1.isEmpty ∨ ¬ d.2.isEmpty then none
        else if signed.1 then some (q / (10 : ℚ) ^ digitsVal d.1)
        else some (q * (10 : ℚ) ^ digitsVal d.1)
      else none

/-- Signed float literal body (after whitespace stripping). -/
def parseSignedFloat (cs : List Char) : Option ℚ :=
  let signed : Bool × List Char :=
    match cs with
    | '-' :: r => (true, r)
    | '+' :: r => (false, r)
    | r => (false, r)
  match parseMantissa signed.2 with
  | none => none
  | some m =>
      match parseExponent m.1 m.2 with
      | none => none
      | some q => some (if signed.1 then -q else q)

/-- Magnitude at which CPython float conversion overflows to inf. -/
def floatMax : ℚ := ((2 ^ 1024 : ℕ) : ℚ)

/-- Clamp an exact value to a Python float (overflow to infinity). -/
def floatOfRat (q : ℚ) : PyFloat :=
  if q ≥ floatMax then .pinf
  else if q ≤ -floatMax then .ninf
  else .finite q

/-- Python strip(): remove leading and trailing whitespace. -/
def stripStr (s : String) : String :=
  String.mk ((s.data.dropWhile Char.isWhitespace).reverse.dropWhile Char.isWhitespace |>.reverse)

/-- Does the first list start with the second one. -/
def listStartsWith : List Char → List Char → Bool
  | _, [] => true
  | [], _ :: _ => false
  | a :: as, b :: bs => a = b ∧ listStartsWith as bs

/-- Left-to-right non-overlapping replacement (Python str.replace),
    with fuel bounded by the length of the subject. -/
def replaceCore (pat repl : List Char) : ℕ → List Char → List Char
  | 0, s => s
  | _ + 1, [] => []
  | fuel + 1, c :: rest =>
      if ¬ pat.isEmpty ∧ listStartsWith (c :: rest) pat then
        repl ++ replaceCore pat repl fuel (rest.drop (pat.length - 1))
      else c :: replaceCore pat repl fuel rest

/-- Python str.replace on strings (the patterns used by the scraper
    are nonempty). -/
def strReplace (s pat repl : String) : String :=
  String.mk (replaceCore pat.data repl.data s.data.length s.data)

/-- Substring occurrence test on character lists. -/
def containsSub : List Char → List Char → Bool
  | [], n => n.isEmpty
  | c :: rest, n => listStartsWith (c :: rest) n ∨ containsSub rest n

/-- float() applied to a string (after stripping whitespace). -/
def pyFloatOfStr (s : String) : Except PyErr PyFloat :=
  match parseSignedFloat (stripStr s).data with
  | none => .error .valueError
  | some q => .ok (floatOfRat q)

/-- float() applied to a value. -/
def pyFloat : JVal → Except PyErr PyFloat
  | .null => .error .typeError
  | .bool b => .ok (.finite (if b then 1 else 0))
  | .int n =>
      if (n : ℚ) ≥ floatMax ∨ (n : ℚ) ≤ -floatMax then .error .overflowError
      else .ok (.finite (n : ℚ))
  | .num q => .ok (.finite q)
  | .str s => pyFloatOfStr s
  | .list _ => .error .typeError
  | .dict _ => .error .typeError

/-- Truncation toward zero of a rational, as int() does on a float. -/
def ratTrunc (q : ℚ) : ℤ :=
  if q < 0 then -Int.floor (-q) else Int.floor q

/-- int() applied to a Python float; OverflowError on infinities. -/
def pyIntOfFloat : PyFloat → Except PyErr ℤ
  | .finite q => .ok (ratTrunc q)
  | .pinf => .error .overflowError
  | .ninf => .error .overflowError

/-- Python str.isdigit (ASCII digits): nonempty and all digits. -/
def isdigitStr (s : String) : Bool :=
  s ≠ "" ∧ s.data.all Char.isDigit

/-- rstrip of a single character (remove all trailing occurrences). -/
def rstripChar (s : String) (c : Char) : String :=
  String.mk ((s.data.reverse.dropWhile (fun x => x = c)).reverse)

/-- Catch the exception classes named in an except clause, mapping a
    caught error to the default; other errors propagate. -/
def pyCatch {α : Type} (caught : List PyErr) (body : Except PyErr α) (dflt : α) :
    Except PyErr α :=
  match body with
  | .ok a => .ok a
  | .error e => if e ∈ caught then .ok dflt else .error e

/-- Body of DataProcessor safe int (data_processor.py, lines 342-353):
    the code inside the try block. -/
def dpSafeIntBody (v : JVal) (dflt : ℤ) : Except PyErr ℤ :=
  match v with
  | .str s0 =>
      let s := stripStr (rstripChar s0 '+')
      if s = "" ∨ ¬ isdigitStr (strReplace (strReplace s "." "") "-" "") then .ok dflt
      else do
        let f ← pyFloatOfStr s
        pyIntOfFloat f
  | v => do
      let f ← pyFloat v
      pyIntOfFloat f

/-- DataProcessor safe int: None maps to the default, ValueError and
    TypeError are caught and map to the default; anything else (only
    OverflowError in this model) escapes. -/
def dpSafeInt (v : JVal) (dflt : ℤ) : Except PyErr ℤ :=
  match v with
  | .null => .ok dflt
  | v => pyCatch [.valueError, .typeError] (dpSafeIntBody v dflt) dflt

/-- Body of DataProcessor safe float (data_processor.py, lines 355-366). -/
def dpSafeFloatBody (v : JVal) (dflt : ℚ) : Except PyErr PyFloat :=
  match v with
  | .str s0 =>
      let s := stripStr (rstripChar s0 '+')
      if s = "" ∨ ¬ isdigitStr (strReplace (strReplace s "." "") "-" "") then .ok (.finite dflt)
      else pyFloatOfStr s
  | v => pyFloat v

/-- DataProcessor safe float. -/
def dpSafeFloat (v : JVal) (dflt : ℚ) : Except PyErr PyFloat :=
  match v with
  | .null => .ok (.finite dflt)
  | v => pyCatch [.valueError, .typeError] (dpSafeFloatBody v dflt) (.finite dflt)

/-- Body of utils.helpers.safe_int (helpers.py, lines 9-25): unlike the
    DataProcessor variant, commas pass the digit check and are removed
    as thousands separators before parsing. -/
def helpersSafeIntBody (v : JVal) (dflt : ℤ) : Except PyErr ℤ :=
  match v with
  | .str s0 =>
      let s := stripStr (rstripChar s0 '+')
      if s = "" ∨ ¬ isdigitStr (strReplace (strReplace (strReplace s "." "") "-" "") "," "") then
        .ok dflt
      else do
        let f ← pyFloatOfStr (strReplace s "," "")
        pyIntOfFloat f
  | v => do
      let f ← pyFloat v
      pyIntOfFloat f

/-- utils.helpers.safe_int. -/
def helpersSafeInt (v : JVal) (dflt : ℤ) : Except PyErr ℤ :=
  match v with
  | .null => .ok dflt
  | v => pyCatch [.valueError, .typeError] (helpersSafeIntBody v dflt) dflt

/-- Body of utils.helpers.safe_float (helpers.py, lines 28-44): strings
    are only checked for emptiness; commas are removed; the float parse
    itself may raise ValueError, which the wrapper catches. -/
def helpersSafeFloatBody (v : JVal) (dflt : ℚ) : Except PyErr PyFloat :=
  match v with
  | .str s0 =>
      let s := stripStr (rstripChar s0 '+')
      if s = "" then .ok (.finite dflt)
      else pyFloatOfStr (strReplace s "," "")
  | v => pyFloat v

/-- utils.helpers.safe_float. -/
def helpersSafeFloat (v : JVal) (dflt : ℚ) : Except PyErr PyFloat :=
  match v with
  | .null => .ok (.finite dflt)
  | v => pyCatch [.valueError, .typeError] (helpersSafeFloatBody v dflt) (.finite dflt)

/-
  difflib.SequenceMatcher(None, a, b).ratio(), as used by
  DeduplicationService for address similarity.  Faithful port of the
  CPython algorithm for isjunk=None: b2j chaining with the autojunk
  rule, find_longest_match with its four extension loops, and the
  LIFO-queue block collection; only the total matched size is needed.
-/

/-- Indices of each element of b, in increasing order (b2j before the
    autojunk step). -/
def buildB2jRaw (b : List Char) : List (Char × List ℕ) :=
  b.enum.foldl
    (fun acc p =>
      match acc.find? (fun kv => kv.1 == p.2) with
      | some _ => acc.map (fun kv => if kv.1 == p.2 then (kv.1, kv.2 ++ [p.1]) else kv)
      | none => acc ++ [(p.2, [p.1])])
    []

/-- b2j after removing popular elements (autojunk: only when b has at
    least 200 elements). -/
def buildB2j (b : List Char) : List (Char × List ℕ) :=
  let raw := buildB2jRaw b
  let n := b.length
  if n ≥ 200 then
    let ntest := n / 100 + 1
    raw.filter (fun kv => ¬ (kv.2.length > ntest))
  else raw

/-- Lookup in b2j (missing element: empty index list). -/
def b2jGet (b2j : List (Char × List ℕ)) (c : Char) : List ℕ :=
  match b2j.find? (fun kv => kv.1 == c) with
  | some kv => kv.2
  | none => []

/-- Running best match of find_longest_match. -/
structure FlmBest where
  besti : ℕ
  bestj : ℕ
  bestsize : ℕ
deriving DecidableEq, Repr

/-- Inner loop of find_longest_match over the occurrence list of a[i]
    (already restricted to [blo, bhi)); threads the new length map and
    the running best. -/
def flmInner (i : ℕ) (js : List ℕ) (j2len : ℕ → ℕ) (best : FlmBest) :
    (ℕ → ℕ) × FlmBest :=
  js.foldl
    (fun acc j =>
      let k := (if j = 0 then 0 else j2len (j - 1)) + 1
      let newmap : ℕ → ℕ := fun x => if x = j then k else acc.1 x
      let newbest :=
        if k > acc.2.bestsize then FlmBest.mk (i + 1 - k) (j + 1 - k) k else acc.2
      (newmap, newbest))
    (fun _ => 0, best)

/-- How far a match can be extended to the left over elements
    satisfying the junk predicate jk. -/
def extLeftLen (a b : Array Char) (jk : Char → Bool) (alo blo : ℕ) :
    ℕ → ℕ → ℕ → ℕ
  | _, _, 0 => 0
  | besti, bestj, fuel + 1 =>
      if besti > alo ∧ bestj > blo ∧
         jk (b.getD (bestj - 1) ' ') = true ∧
         a.getD (besti - 1) ' ' = b.getD (bestj - 1) ' ' then
        1 + extLeftLen a b jk alo blo (besti - 1) (bestj - 1) fuel
      else 0

/-- How far a match can be extended to the right over elements
    satisfying the junk predicate jk. -/
def extRightLen (a b : Array Char) (jk : Char → Bool) (ahi bhi : ℕ)
    (besti bestj : ℕ) : ℕ → ℕ → ℕ
  | _, 0 => 0
  | bestsize, fuel + 1 =>
      if besti + bestsize < ahi ∧ bestj + bestsize < bhi ∧
         jk (b.getD (bestj + bestsize) ' ') = true ∧
         a.getD (besti + bestsize) ' ' = b.getD (bestj + bestsize) ' ' then
        1 + extRightLen a b jk ahi bhi besti bestj (bestsize + 1) fuel
      else 0

/-- find_longest_match(alo, ahi, blo, bhi).  The junk set is empty for
    isjunk=None, so the junk extension passes use the constant-false
    predicate complemented: non-junk passes extend over all matching
    elements and junk passes extend over none. -/
def findLongestMatch (a b : Array Char) (b2j : List (Char × List ℕ))
    (alo ahi blo bhi : ℕ) : FlmBest :=
  let main :=
    (List.range (ahi - alo)).foldl
      (fun (acc : (ℕ → ℕ) × FlmBest) d =>
        let i := alo + d
        let js := ((b2jGet b2j (a.getD i ' ')).filter (fun j => j ≥ blo)).takeWhile
          (fun j => j < bhi)
        flmInner i js acc.1 acc.2)
      (fun _ => 0, FlmBest.mk alo blo 0)
  let best := main.2
  let nonjunk : Char → Bool := fun _ => true
  let junk : Char → Bool := fun _ => false
  let l1 := extLeftLen a b nonjunk alo blo best.besti best.bestj best.besti
  let best := FlmBest.mk (best.besti - l1) (best.bestj - l1) (best.bestsize + l1)
  let r1 := extRightLen a b nonjunk ahi bhi best.besti best.bestj best.bestsize (ahi + 1)
  let best := FlmBest.mk best.besti best.bestj (best.bestsize + r1)
  let l2 := extLeftLen a b junk alo blo best.besti best.bestj best.besti
  let best := FlmBest.mk (best.besti - l2) (best.bestj - l2) (best.bestsize + l2)
  let r2 := extRightLen a b junk ahi bhi best.besti best.bestj best.bestsize (ahi + 1)
  FlmBest.mk best.besti best.bestj (best.bestsize + r2)

/-- get_matching_blocks queue loop (LIFO; the right sub-interval is
    pushed last, hence popped first); accumulates total matched size.
    Fuel bounds the loop by the decreasing measure
    sum over the queue of (2 * interval size + 1). -/
def gmbLoop (a b : Array Char) (b2j : List (Char × List ℕ)) :
    ℕ → List (ℕ × ℕ × ℕ × ℕ) → ℕ → ℕ
  | 0, _, acc => acc
  | _ + 1, [], acc => acc
  | fuel + 1, (alo, ahi, blo, bhi) :: rest, acc =>
      let best := findLongestMatch a b b2j alo ahi blo bhi
      let i := best.besti
      let j := best.bestj
      let k := best.bestsize
      if k ≠ 0 then
        let st := rest
        let st := if alo < i ∧ blo < j then (alo, i, blo, j) :: st else st
        let st := if i + k < ahi ∧ j + k < bhi then (i + k, ahi, j + k, bhi) :: st else st
        gmbLoop a b b2j fuel st (acc + k)
      else gmbLoop a b b2j fuel rest acc

/-- Total size of the matching blocks of the two sequences. -/
def totalMatches (la lb : List Char) : ℕ :=
  let a := la.toArray
  let b := lb.toArray
  let b2j := buildB2j lb
  gmbLoop a b b2j (2 * (la.length + lb.length) + 2) [(0, la.length, 0, lb.length)] 0

/-- SequenceMatcher.ratio(): 2 M / T, and 1.0 when both are empty. -/
def seqMatchScore (la lb : List Char) : ℚ :=
  let t := la.length + lb.length
  if t = 0 then 1 else 2 * (totalMatches la lb : ℚ) / (t : ℚ)

/-- Python str.lower, on ASCII letters. -/
def pyLower (s : String) : String :=
  String.mk (s.data.map Char.toLower)

/-- Helper for collapseWs: the flag records whether the previous
    character was whitespace (already emitted as one space). -/
def collapseWsAux : Bool → List Char → List Char
  | _, [] => []
  | prevWs, c :: rest =>
      if c.isWhitespace then
        if prevWs then collapseWsAux true rest
        else ' ' :: collapseWsAux true rest
      else c :: collapseWsAux false rest

/-- Collapse each whitespace run to a single space (re.sub on the
    whitespace class). -/
def collapseWs (cs : List Char) : List Char :=
  collapseWsAux false cs

/-- DeduplicationService address normalization
    (deduplication_service.py, lines 154-177): lowercase and strip,
    collapse whitespace, drop punctuation, apply the synonym table. -/
def normalizeAddress (address : String) : String :=
  let n0 := stripStr (pyLower address)
  let n1 := String.mk (collapseWs n0.data)
  let n2 := String.mk (n1.data.filter (fun c => ¬ (c ∈ ['.', ',', ';', ':', '!', '?', '-'])))
  let n3 := strReplace n2 "street" "str"
  let n4 := strReplace n3 "avenue" "ave"
  let n5 := strReplace n4 "boulevard" "blvd"
  let n6 := strReplace n5 "квартира" "кв"
  strReplace n6 "apartment" "apt"

/-- DeduplicationService address similarity
    (deduplication_service.py, lines 143-152). -/
def calculateAddressSimilarity (addr1 addr2 : String) : ℚ :=
  if addr1 = "" ∨ addr2 = "" then 0
  else seqMatchScore (normalizeAddress addr1).data (normalizeAddress addr2).data

/-
  Canonical record (models.property_data.PropertyData) and property
  rows.  Fields fed directly from raw payload values keep type JVal
  (Python stores them untyped); computed fields get their actual type.
  Datetimes are carried as the accepted source string (parse result of
  strptime) or a tick count for wall-clock stamps.
-/

/-- Image attached to a PropertyData (PropertyImage dataclass /
    the ad-hoc class built in data_processor). -/
structure PImage where
  url : String
  caption : Option String := none
  is_primary : JVal := .bool false
  order_index : ℕ := 0
  blur_url : Option String := none
  thumbnail_url : Option String := none

/-- Parameter link attached to a PropertyData. -/
structure PParam where
  parameter_id : JVal
  parameter_value : JVal := .null
  parameter_select_name : JVal := .null

/-- Price tuple attached to a PropertyData. -/
structure PPrice where
  currency_type : String
  price_total : ℚ
  price_square : ℚ := 0

/-- Datetime value: either a string accepted by strptime or a
    wall-clock instant (datetime.now at tick t). -/
inductive DT : Type
  | parsed : String → DT
  | wall : ℕ → DT
deriving DecidableEq, Repr

/-- Scalar fields of a canonical record: the image of
    PropertyData.to_dict minus the related collections. -/
structure PropertyFields where
  external_id : String
  source : String := "myhome.ge"
  title : JVal := .str ""
  title_en : Option String := none
  title_ru : Option String := none
  description : JVal := .str ""
  description_en : Option String := none
  description_ru : Option String := none
  address : JVal := .str ""
  city : JVal := .str "Tbilisi"
  state : JVal := .str "Georgia"
  country : JVal := .str "Georgia"
  zip_code : JVal := .null
  district : JVal := .null
  urban_area : JVal := .null
  latitude : Option PyFloat := none
  longitude : Option PyFloat := none
  property_type : String := "apartment"
  listing_type : String := "rent"
  bedrooms : ℤ := 1
  bathrooms : PyFloat := .finite 1
  square_feet : ℤ := 0
  lot_size : PyFloat := .finite 0
  rent_amount : ℚ := 0
  rent_amount_usd : ℚ := 0
  security_deposit : Option ℚ := none
  lease_duration : ℤ := 12
  available_date : Option String := none
  is_available : Bool := true
  is_furnished : Bool := false
  pets_allowed : Bool := false
  smoking_allowed : Bool := false
  year_built : ℤ := 0
  parking_spaces : ℤ := 0
  floor_number : ℤ := 0
  total_floors : ℤ := 0
  utilities_included : String := ""
  user_type : String := "agency"
  created_at : Option DT := none
  updated_at : Option DT := none
  last_scraped : Option DT := none

/-- Canonical record produced by the Normalizer. -/
structure PropertyData where
  fields : PropertyFields
  images : List PImage := []
  parameters : List PParam := []
  prices : List PPrice := []
  raw_parameters : List JVal := []

/-- PropertyData.to_dict at wall-clock time now: the scalar fields,
    with last_scraped defaulted to now. -/
def PropertyData.toDict (pd : PropertyData) (now : ℕ) : PropertyFields :=
  { pd.fields with last_scraped := some (pd.fields.last_scraped.getD (.wall now)) }

/-- A row of the properties table (database.Property): assigned primary
    key, owner foreign key, and the inserted field values.  The model
    carries exactly the columns the scraper writes; the table has no
    agency_name column. -/
structure DBProperty where
  id : ℕ
  owner_id : ℕ
  fields : PropertyFields

/-
  DeduplicationService (services/deduplication_service.py).  The
  session is a list of rows plus a failure flag: when the flag is set
  every query raises, modelling an internal error during the duplicate
  search (caught at the find_duplicates boundary).
-/

/-- Database session visible to the deduplication queries. -/
structure DedupDB where
  props : List DBProperty
  fail : Bool := false

/-- Exact match query (deduplication_service.py, lines 90-103):
    first row with this external_id and source myhome.ge. -/
def findExactMatch (db : DedupDB) (externalId : String) :
    Except PyErr (Option DBProperty) :=
  if db.fail then .error .dbError
  else .ok (db.props.find? (fun p =>
    p.fields.external_id == externalId ∧ p.fields.source == "myhome.ge"))

/-- SQL-level proximity of a stored coordinate to the candidate one:
    abs difference below the tolerance; any infinity compares false. -/
def coordClose (stored : Option PyFloat) (cand : PyFloat) : Bool :=
  match stored, cand with
  | some (.finite a), .finite b => |a - b| < 1 / 10000
  | _, _ => false

/-- Coordinate match query (deduplication_service.py, lines 105-117). -/
def findCoordinateMatches (db : DedupDB) (lat lng : PyFloat) :
    Except PyErr (List DBProperty) :=
  if db.fail then .error .dbError
  else .ok (db.props.filter (fun p =>
    ¬ (p.fields.latitude = none) ∧ ¬ (p.fields.longitude = none) ∧
    coordClose p.fields.latitude lat ∧ coordClose p.fields.longitude lng ∧
    p.fields.source == "myhome.ge"))

/-- Address similarity between the candidate address value and a stored
    address; a non-string truthy candidate address raises
    AttributeError in lower(). -/
def calcAddrSimE (addr1 : JVal) (addr2 : String) : Except PyErr ℚ :=
  if ¬ addr1.truthy ∨ addr2 = "" then .ok 0
  else match addr1 with
    | .str s => .ok (calculateAddressSimilarity s addr2)
    | _ => .error .attributeError

/-- Stored address of a row as the scraper later reads it back
    (truthiness of the stored JVal as a filter, string content for
    similarity).  Rows written by this pipeline store the raw address
    value; a non-string one is surfaced as-is. -/
def storedAddress (p : DBProperty) : JVal := p.fields.address

/-- One step of the address-similarity loop: score a stored row
    against the candidate address and keep it above the threshold. -/
def addrMatchStep (address : JVal) (acc : List DBProperty) (p : DBProperty) :
    Except PyErr (List DBProperty) := do
  if (storedAddress p).truthy then
    match storedAddress p with
    | .str s =>
        let sim ← calcAddrSimE address s
        if sim ≥ 85 / 100 then pure (acc ++ [p]) else pure acc
    | _ => throw .attributeError
  else pure acc

/-- Address match query (deduplication_service.py, lines 119-141):
    all myhome.ge rows except the already-found ones, kept when their
    address is truthy and scores at least the similarity threshold. -/
def findAddressMatches (db : DedupDB) (address : JVal)
    (exclude : List DBProperty) : Except PyErr (List DBProperty) :=
  if db.fail then .error .dbError
  else do
    let excludeIds := exclude.map (fun p => p.id)
    let base := db.props.filter (fun p => p.fields.source == "myhome.ge")
    let base := if excludeIds.isEmpty then base
      else base.filter (fun p => ¬ (p.id ∈ excludeIds))
    let withSim ← base.foldlM (addrMatchStep address) []
    pure withSim

/-- Body of find_duplicates (deduplication_service.py, lines 53-84):
    the code inside the try block.  The exact tier short-circuits; the
    coordinate tier runs when both candidate coordinates are truthy;
    the address tier runs when the candidate address is truthy,
    excluding rows the earlier tiers already collected. -/
def findDuplicatesBody (db : DedupDB) (pd : PropertyData) :
    Except PyErr (List DBProperty) :=
  findExactMatch db pd.fields.external_id >>= fun exact =>
  match exact with
  | some p => pure [p]
  | none =>
    (match pd.fields.latitude, pd.fields.longitude with
     | some lat, some lng =>
         if (lat ≠ .finite 0) ∧ (lng ≠ .finite 0) then
           findCoordinateMatches db lat lng
         else pure []
     | _, _ => pure []) >>= fun coordMatches =>
    (if pd.fields.address.truthy then
        findAddressMatches db pd.fields.address (([] : List DBProperty) ++ coordMatches)
      else pure []) >>= fun addrMatches =>
    pure ((([] : List DBProperty) ++ coordMatches) ++ addrMatches)

/-- find_duplicates: any internal error is caught and the empty list
    returned (deduplication_service.py, lines 86-88). -/
def findDuplicates (db : DedupDB) (pd : PropertyData) : List DBProperty :=
  match findDuplicatesBody db pd with
  | .ok l => l
  | .error _ => []

/-- should_replace_duplicate (deduplication_service.py, lines
    179-199). -/
def shouldReplaceDuplicate (enableOwnerPriority : Bool)
    (newUserType existingUserType : String) : Bool :=
  if ¬ enableOwnerPriority then false
  else
    let newIsOwner := newUserType == "owner"
    let existingIsOwner := existingUserType == "owner"
    if newIsOwner ∧ ¬ existingIsOwner then true
    else if newIsOwner == existingIsOwner then false
    else false

/-- is_owner_listing (deduplication_service.py, lines 201-203). -/
def isOwnerListing (pd : PropertyData) : Bool :=
  pd.fields.user_type == "owner"

/-- MyHomeAdvancedScraper._is_owner_listing_from_db (myhome_scraper.py,
    lines 460-466): the Property model has no agency_name attribute, so
    hasattr is always false and the function returns True. -/
def isOwnerListingFromDb (_ : DBProperty) : Bool := true

/-
  DataProcessor (processors/data_processor.py).  Each private method is
  one definition; fallible Python operations run in Except PyErr and
  process_property catches every exception into None.
-/

/-- Python or: the left operand if truthy, else the right. -/
def pyOr (a b : JVal) : JVal := if a.truthy then a else b

/-- Python equality between a value and an int literal (numeric
    cross-type equality; everything else unequal). -/
def jEqInt (v : JVal) (n : ℤ) : Bool :=
  match v with
  | .int m => m = n
  | .num q => q = (n : ℚ)
  | .bool b => (if b then (1 : ℤ) else 0) = n
  | _ => false

/-- Numeric value of a value already known to be a number or bool. -/
def jNumToRat : JVal → ℚ
  | .int n => (n : ℚ)
  | .num q => q
  | .bool b => if b then 1 else 0
  | _ => 0

/-- Finite value of a Python float (callers only apply this where an
    infinity cannot occur). -/
def pfRat : PyFloat → ℚ
  | .finite q => q
  | _ => 0

/-- Python comparison value > n for an int literal n: TypeError unless
    the value is numeric. -/
def pyGtInt (v : JVal) (n : ℤ) : Except PyErr Bool :=
  match v with
  | .int m => .ok (m > n)
  | .num q => .ok (q > (n : ℚ))
  | .bool b => .ok ((if b then (1 : ℤ) else 0) > n)
  | _ => .error .typeError

/-- value.lower() — AttributeError unless the value is a string. -/
def pyLowerE (v : JVal) : Except PyErr String :=
  match v with
  | .str s => .ok (pyLower s)
  | _ => .error .attributeError

/-- value.replace(pat, repl) — AttributeError unless a string. -/
def pyReplaceE (v : JVal) (pat repl : String) : Except PyErr String :=
  match v with
  | .str s => .ok (strReplace s pat repl)
  | _ => .error .attributeError

/-- Substring containment (Python in on strings; needles used by the
    code are nonempty). -/
def strContains (haystack needle : String) : Bool :=
  containsSub haystack.data needle.data

/-- One literal character of a strptime format. -/
def litC (c : Char) : List Char → Option (List Char)
  | [] => none
  | x :: rest => if x = c then some rest else none

/-- Exactly four digits (strptime %Y). -/
def yearC (cs : List Char) : List (List Char) :=
  match cs with
  | a :: b :: c :: d :: rest =>
      if a.isDigit ∧ b.isDigit ∧ c.isDigit ∧ d.isDigit then [rest] else []
  | _ => []

/-- One- or two-digit numeric directive with a value bound, two-digit
    alternative first (strptime alternation order). -/
def num2C (lo hi : ℕ) (cs : List Char) : List (List Char) :=
  let one :=
    match cs with
    | a :: rest =>
        if a.isDigit ∧ lo ≤ (a.toNat - 48) ∧ (a.toNat - 48) ≤ hi then [rest] else []
    | [] => []
  match cs with
  | a :: b :: rest =>
      if a.isDigit ∧ b.isDigit ∧
         lo ≤ ((a.toNat - 48) * 10 + (b.toNat - 48)) ∧
         ((a.toNat - 48) * 10 + (b.toNat - 48)) ≤ hi then rest :: one
      else one
  | _ => one

/-- Run the remaining components over every candidate rest. -/
def anyRest (cands : List (List Char)) (k : List Char → Bool) : Bool :=
  cands.any k

/-- strptime full match for the format Y-m-d. -/
def matchYmd (cs : List Char) (k : List Char → Bool) : Bool :=
  anyRest (yearC cs) fun r1 =>
    match litC '-' r1 with
    | none => false
    | some r2 => anyRest (num2C 1 12 r2) fun r3 =>
        match litC '-' r3 with
        | none => false
        | some r4 => anyRest (num2C 1 31 r4) k

/-- strptime full match for H:M:S. -/
def matchHms (cs : List Char) (k : List Char → Bool) : Bool :=
  anyRest (num2C 0 23 cs) fun r1 =>
    match litC ':' r1 with
    | none => false
    | some r2 => anyRest (num2C 0 59 r2) fun r3 =>
        match litC ':' r3 with
        | none => false
        | some r4 => anyRest (num2C 0 61 r4) k

/-- strptime full match for the d/m/Y and m/d/Y formats (which string
    matches is the same question for both digit bounds). -/
def matchDmy (loA hiA loB hiB : ℕ) (cs : List Char) : Bool :=
  anyRest (num2C loA hiA cs) fun r1 =>
    match litC '/' r1 with
    | none => false
    | some r2 => anyRest (num2C loB hiB r2) fun r3 =>
        match litC '/' r3 with
        | none => false
        | some r4 => anyRest (yearC r4) List.isEmpty

/-- DataProcessor._parse_datetime (data_processor.py, lines 327-340):
    the accepted source string is kept as the model of the parsed
    datetime; every failure path yields None. -/
def parseDatetime (v : JVal) : Option String :=
  if ¬ v.truthy then none
  else match v with
    | .str s =>
        let cs := s.data
        let ok :=
          matchYmd cs (fun r =>
            match litC ' ' r with
            | none => false
            | some r2 => matchHms r2 List.isEmpty) ∨
          matchYmd cs List.isEmpty ∨
          matchDmy 1 31 1 12 cs ∨
          matchDmy 1 12 1 31 cs
        if ok then some s else none
    | _ => none

/-- DataProcessor._process_basic_info (data_processor.py, lines
    54-69). -/
def processBasicInfo (raw : JVal) : PropertyFields :=
  let title0 := raw.get "dynamic_title" (.str "")
  let title :=
    if ¬ title0.truthy then
      pyOr (pyOr (raw.get "title" (.str "")) (raw.get "dynamic_slug" (.str "")))
        (.str ("Property " ++ pyStr (raw.get "id" (.str "Unknown"))))
    else title0
  { external_id := pyStr (raw.get "id" (.str ""))
    title := title
    description := raw.get "comment" (.str "")
    created_at := (parseDatetime (raw.get "created_at" .null)).map .parsed
    updated_at := (parseDatetime (raw.get "last_updated" .null)).map .parsed
    source := "myhome.ge" }

/-- DataProcessor._process_location (data_processor.py, lines
    71-106).  The float() conversions of lat and lng can raise. -/
def processLocation (raw : JVal) (f : PropertyFields) :
    Except PyErr PropertyFields := do
  let a0 := raw.get "address" (.str "")
  let a1 :=
    if ¬ a0.truthy then
      pyOr (raw.get "street_address" (.str "")) (raw.get "full_address" (.str ""))
    else a0
  let a2 :=
    if ¬ a1.truthy then
      let streetName := raw.get "street_name" (.str "")
      let houseNumber := pyOr (raw.get "house_number" (.str "")) (raw.get "building_number" (.str ""))
      if streetName.truthy then
        .str (stripStr (pyStr streetName ++ " " ++ pyStr houseNumber))
      else a1
    else a1
  let f := { f with
    address := a2
    city := pyOr (raw.get "city_name" .null) (.str "Tbilisi")
    state := pyOr (raw.get "district_name" .null) (.str "Georgia")
    district := raw.get "district_name" .null
    urban_area := raw.get "urban_name" .null }
  let metro := raw.get "metro_station" .null
  let f :=
    if metro.truthy then
      if f.utilities_included ≠ "" then
        { f with utilities_included := f.utilities_included ++ ", Metro: " ++ pyStr metro }
      else
        { f with utilities_included := "Metro: " ++ pyStr metro }
    else f
  let lat := raw.get "lat" .null
  let lng := raw.get "lng" .null
  match lat, lng with
  | .null, _ => pure f
  | _, .null => pure f
  | lat, lng => do
      let la ← pyFloat lat
      let ln ← pyFloat lng
      pure { f with latitude := some la, longitude := some ln }

/-- Python int coercion of the bedroom and room fields
    (data_processor.py, lines 130-141): digit strings are converted,
    ints (including bools) kept, everything else replaced by the
    fallback. -/
def coerceRoomCount (v : JVal) (fallback : ℤ) : ℤ :=
  match v with
  | .str s => if isdigitStr s then (digitsVal s.data : ℤ) else fallback
  | .int n => n
  | .bool b => if b then 1 else 0
  | _ => fallback

/-- Body of DataProcessor._extract_bathroom_count (data_processor.py,
    lines 368-396), inside its try block. -/
def extractBathroomBody (raw : JVal) : Except PyErr PyFloat := do
  let params := raw.get "parameters" (.list [])
  let fromParams ←
    match params with
    | .list xs =>
        xs.foldlM
          (fun (acc : Option PyFloat) param => do
            match acc with
            | some _ => pure acc
            | none =>
              match param with
              | .dict _ => do
                  let key ← pyLowerE (param.get "key" (.str ""))
                  let value := param.get "parameter_value" (.str "")
                  if strContains key "bathroom" ∨ strContains key "toilet" ∨
                     strContains key "wc" then
                    let bc ← dpSafeFloat value 1
                    match bc with
                    | .finite q => if q > 0 then pure (some bc) else pure none
                    | .pinf => pure (some bc)
                    | .ninf => pure none
                  else pure none
              | _ => pure none)
          none
    | _ => pure none
  match fromParams with
  | some bc => pure bc
  | none => do
    let bathroomField := raw.get "bathroom" .null
    if bathroomField.truthy then
      dpSafeFloat bathroomField 1
    else do
      let bedrooms ← dpSafeInt (raw.get "bedroom" (.str "1")) 0
      pure (.finite (max 1 ((bedrooms : ℚ) * (1 / 2))))

/-- DataProcessor._extract_bathroom_count: its try block catches every
    exception into the safe default 1.0. -/
def extractBathroomCount (raw : JVal) : PyFloat :=
  match extractBathroomBody raw with
  | .ok f => f
  | .error _ => .finite 1

/-- DataProcessor._process_property_details (data_processor.py, lines
    108-151).  The safe conversions can surface OverflowError. -/
def processPropertyDetails (raw : JVal) (f : PropertyFields) :
    Except PyErr PropertyFields := do
  let ptid := raw.get "real_estate_type_id" .null
  let propertyType :=
    if jEqInt ptid 1 then "apartment"
    else if jEqInt ptid 2 then "house"
    else if jEqInt ptid 3 then "commercial"
    else "apartment"
  let dtid := raw.get "deal_type_id" .null
  let listingType :=
    if jEqInt dtid 1 then "sale"
    else if jEqInt dtid 2 then "rent"
    else "rent"
  let bedroom := coerceRoomCount (raw.get "bedroom" (.str "1")) 1
  let room := coerceRoomCount (raw.get "room" (.str "1")) (bedroom + 1)
  let squareFeet ← dpSafeInt (raw.get "area" .null) 0
  let lotSize ← dpSafeFloat (raw.get "yard_area" .null) 0
  let f := { f with
    property_type := propertyType
    listing_type := listingType
    bedrooms := bedroom
    bathrooms := extractBathroomCount raw
    square_feet := squareFeet
    lot_size := lotSize }
  if room ≠ bedroom then
    pure { f with utilities_included := "Total rooms: " ++ toString room }
  else
    pure f

/-- DataProcessor._process_all_prices (data_processor.py, lines
    190-214): one PPrice per currency entry with a positive total. -/
def processAllPrices (raw : JVal) : Except PyErr (List PPrice) := do
  match raw.get "price" (.dict []) with
  | .dict kvs =>
      kvs.foldlM
        (fun (acc : List PPrice) kv => do
          match kv.2 with
          | .dict _ => do
              let priceTotal := kv.2.get "price_total" (.int 0)
              let priceSquare := kv.2.get "price_square" (.int 0)
              if priceTotal.truthy then do
                let pos ← pyGtInt priceTotal 0
                if pos then do
                  let pt ← pyFloat priceTotal
                  let ps ←
                    if priceSquare.truthy then do
                      let v ← pyFloat priceSquare
                      pure (pfRat v)
                    else pure 0
                  pure (acc ++ [PPrice.mk kv.1 (pfRat pt) ps])
                else pure acc
              else pure acc
          | _ => pure acc)
        []
  | _ => pure []

/-- DataProcessor._process_basic_financial (data_processor.py, lines
    153-188): currency key 1 is the primary (GEL) amount, key 2 the
    USD amount, with a first-entry fallback for the primary amount. -/
def processBasicFinancial (raw : JVal) (f : PropertyFields) :
    Except PyErr (PropertyFields × List PPrice) :=
  (match raw.get "price" (.dict []) with
   | .dict kvs =>
       let gelInfo := dictGet kvs "1" .null
       let usdInfo := dictGet kvs "2" .null
       (match gelInfo with
        | .dict _ =>
            let t := gelInfo.get "price_total" (.int 0)
            if t.truthy then
              pyGtInt t 0 >>= fun pos =>
              if pos then pure { f with rent_amount := jNumToRat t } else pure f
            else pure f
        | _ => pure f) >>= fun f =>
       (match usdInfo with
        | .dict _ =>
            let t := usdInfo.get "price_total" (.int 0)
            if t.truthy then
              pyGtInt t 0 >>= fun pos =>
              if pos then pure { f with rent_amount_usd := jNumToRat t } else pure f
            else pure f
        | _ => pure f) >>= fun f =>
       (if f.rent_amount = 0 ∧ ¬ kvs.isEmpty then
          match kvs.head? with
          | some kv =>
              if kv.2.truthy then
                match kv.2 with
                | .dict _ =>
                    let t := kv.2.get "price_total" (.int 0)
                    if t.truthy then
                      pyGtInt t 0 >>= fun pos =>
                      if pos then pure { f with rent_amount := jNumToRat t } else pure f
                    else pure f
                | _ => pure f
              else pure f
          | none => pure f
        else pure f)
   | _ => pure f) >>= fun f =>
  processAllPrices raw >>= fun prices =>
  pure (f, prices)

/-- DataProcessor._process_parameters (data_processor.py, lines
    433-459): keeps the raw parameter dicts and builds one PParam per
    parameter entry with a truthy id. -/
def processParameters (raw : JVal) : List JVal × List PParam :=
  match raw.get "parameters" (.list []) with
  | .list xs =>
      if xs.isEmpty then ([], [])
      else
        (xs,
         xs.foldl
           (fun acc param =>
             match param with
             | .dict _ =>
                 let pid := param.get "id" .null
                 if pid.truthy then
                   acc ++ [PParam.mk pid (param.get "parameter_value" .null)
                     (param.get "parameter_select_name" .null)]
                 else acc
             | _ => acc)
           [])
  | _ => ([], [])

/-- One iteration of the parameter scan of _process_features: lowercase
    the key and display name of a parameter dict and switch on the
    furnished and pet indicator substrings. -/
def featuresStep (f : PropertyFields) (param : JVal) :
    Except PyErr PropertyFields := do
  let furnishedIndicators := ["furniture", "furnished", "appliance"]
  let petIndicators := ["pet", "animal"]
  match param with
  | .dict _ => do
      let key ← pyLowerE (param.get "key" (.str ""))
      let displayName ← pyLowerE (param.get "display_name" (.str ""))
      let f :=
        if furnishedIndicators.any
            (fun ind => strContains key ind ∨ strContains displayName ind) then
          { f with is_furnished := true }
        else f
      let f :=
        if petIndicators.any
            (fun ind => strContains key ind ∨ strContains displayName ind) then
          { f with pets_allowed := true }
        else f
      pure f
  | _ => pure f

/-- DataProcessor._process_features (data_processor.py, lines
    216-247): scans parameter keys and display names, lowercased, for
    furnished and pet indicators; lower() on a non-string raises. -/
def processFeatures (raw : JVal) (f : PropertyFields) :
    Except PyErr (PropertyFields × List JVal × List PParam) := do
  let f := { f with is_available := true, is_furnished := false, pets_allowed := false }
  let f ←
    match raw.get "parameters" (.list []) with
    | .list xs => xs.foldlM featuresStep f
    | _ => pure f
  let f := { f with smoking_allowed := false }
  let p := processParameters raw
  pure (f, p.1, p.2)

/-- DataProcessor._process_building_details (data_processor.py, lines
    249-286). -/
def processBuildingDetails (raw : JVal) (f : PropertyFields) :
    Except PyErr PropertyFields := do
  let yearBuilt ← dpSafeInt (raw.get "year_built" .null) 0
  let parking ← dpSafeInt (raw.get "parking" .null) 0
  let floorNumber ← dpSafeInt (raw.get "floor" .null) 0
  let totalFloors ← dpSafeInt (raw.get "total_floors" .null) 0
  let f := { f with
    year_built := yearBuilt
    parking_spaces := parking
    floor_number := floorNumber
    total_floors := totalFloors }
  let info : List String := []
  let info := if (raw.get "is_vip" .null).truthy then info ++ ["VIP listing"] else info
  let info := if (raw.get "is_super_vip" .null).truthy then info ++ ["Super VIP listing"] else info
  let info := if (raw.get "has_3d" .null).truthy then info ++ ["3D tour available"] else info
  let info := if (raw.get "price_negotiable" .null).truthy then info ++ ["Price negotiable"] else info
  let info := if (raw.get "price_from" .null).truthy then info ++ ["Price from"] else info
  let qod := raw.get "quantity_of_day" .null
  let info :=
    if qod.truthy then info ++ ["Listed " ++ pyStr qod ++ " days ago"] else info
  if ¬ info.isEmpty then
    let joined := String.intercalate "; " info
    if f.utilities_included ≠ "" then
      pure { f with utilities_included := f.utilities_included ++ "; " ++ joined }
    else
      pure { f with utilities_included := joined }
  else
    pure f

/-- DataProcessor._process_photos (data_processor.py, lines 398-431):
    one PImage per image dict with a truthy large url; the escape
    cleanup replace raises on non-string urls. -/
def processPhotos (raw : JVal) : Except PyErr (List PImage) := do
  match raw.get "images" (.list []) with
  | .list xs =>
      if xs.isEmpty then pure []
      else
        (xs.enum.foldlM
          (fun (acc : List PImage) p => do
            let image := p.2
            match image with
            | .dict _ => do
                let largeUrl := image.get "large" .null
                if largeUrl.truthy then do
                  let cleanUrl ← pyReplaceE largeUrl "\\/" "/"
                  let isMain := image.get "is_main" (.bool false)
                  let blurUrl ←
                    if (image.get "blur" .null).truthy then do
                      let b ← pyReplaceE (image.get "blur" (.str "")) "\\/" "/"
                      pure (some b)
                    else pure none
                  let thumbUrl ←
                    if (image.get "thumb" .null).truthy then do
                      let t ← pyReplaceE (image.get "thumb" (.str "")) "\\/" "/"
                      pure (some t)
                    else pure none
                  pure (acc ++ [PImage.mk cleanUrl none isMain p.1 blurUrl thumbUrl])
                else pure acc
            | _ => pure acc)
          [])
  | _ => pure []

/-- DataProcessor._determine_user_type (data_processor.py, lines
    288-325). -/
def determineUserType (raw : JVal) : Except PyErr String := do
  let userTypeData := raw.get "user_type" (.dict [])
  let fromType ←
    match userTypeData with
    | .dict _ => do
        let ut ← pyLowerE (userTypeData.get "type" (.str ""))
        let ownerIndicators := ["owner", "individual", "private", "person"]
        let agencyIndicators := ["agency", "realtor", "broker", "company"]
        if ownerIndicators.any (fun ind => strContains ut ind) then
          pure (some "owner")
        else if agencyIndicators.any (fun ind => strContains ut ind) then
          pure (some "agency")
        else pure none
    | _ => pure none
  match fromType with
  | some t => pure t
  | none => do
    let userTitle := raw.get "user_title" (.str "")
    let agencyFields := ["agency_name", "company_name", "broker_name"]
    let hasAgencyInfo := agencyFields.any (fun fld => (raw.get fld .null).truthy)
    let agencyTerms := ["agency", "realtor", "broker", "company", "estate"]
    let titleSaysAgency ←
      if userTitle.truthy then do
        let lt ← pyLowerE userTitle
        pure (agencyTerms.any (fun term => strContains lt term))
      else pure false
    if titleSaysAgency then pure "agency"
    else do
      let contactInfo := raw.get "contact" (.dict [])
      let phone ← pyGetOnAny contactInfo "phone" .null
      let hasDirectContact ←
        if phone.truthy then pure true
        else do
          let email ← pyGetOnAny contactInfo "email" .null
          pure email.truthy
      if ¬ hasAgencyInfo ∧ hasDirectContact then pure "owner"
      else do
        let usc := raw.get "user_statements_count" (.int 0)
        let many ← pyGtInt usc 5
        if many then pure "agency"
        else pure "agency"

/-- Body of DataProcessor.process_property (data_processor.py, lines
    30-48): the pipeline of processing steps in order. -/
def processPropertyE (raw : JVal) : Except PyErr PropertyData := do
  let f := processBasicInfo raw
  let f ← processLocation raw f
  let f ← processPropertyDetails raw f
  let fp ← processBasicFinancial raw f
  let ffp ← processFeatures raw fp.1
  let f ← processBuildingDetails raw ffp.1
  let images ← processPhotos raw
  let userType ← determineUserType raw
  pure { fields := { f with user_type := userType }
         images := images
         parameters := ffp.2.2
         prices := fp.2
         raw_parameters := ffp.2.1 }

/-- DataProcessor.process_property (data_processor.py, lines 30-52):
    every exception raised by the steps is caught and None returned;
    this is the only way a raw listing is rejected. -/
def processProperty (raw : JVal) : Option PropertyData :=
  match processPropertyE raw with
  | .ok pd => some pd
  | .error _ => none

/-
  Persistence store (database.py tables touched by the scraper) and
  DatabaseService (services/database_service.py).  Primary keys are
  modelled by per-table counters.
-/

/-- Row of property_images. -/
structure DBImageRow where
  id : ℕ
  property_id : ℕ
  image_url : String
  caption : Option String
  is_primary : JVal
  order_index : ℕ

/-- Row of property_prices. -/
structure DBPriceRow where
  id : ℕ
  property_id : ℕ
  currency_type : String
  price_total : ℚ
  price_square : ℚ
deriving DecidableEq, Repr

/-- Row of the parameters dictionary table. -/
structure ParameterRow where
  id : ℕ
  external_id : JVal
  key : String
  sort_index : JVal
  parameter_type : String
  display_name : String

/-- Row of property_parameters (the link table). -/
structure DBParamLinkRow where
  id : ℕ
  property_id : ℕ
  parameter_id : ℕ
  parameter_value : JVal
  parameter_select_name : JVal

/-- The store: the tables the ingestion pipeline writes, with the
    counters handing out primary keys. -/
structure Store where
  props : List DBProperty := []
  images : List DBImageRow := []
  prices : List DBPriceRow := []
  paramLinks : List DBParamLinkRow := []
  parameters : List ParameterRow := []
  nextPropId : ℕ := 1
  nextImageId : ℕ := 1
  nextPriceId : ℕ := 1
  nextLinkId : ℕ := 1
  nextParamId : ℕ := 1

/-- SQL equality between two stored values (numeric cross-type
    equality, strings by content, NULL equal to nothing). -/
def jEqb : JVal → JVal → Bool
  | .int m, .int n => m = n
  | .int m, .num q => (m : ℚ) = q
  | .num q, .int n => q = (n : ℚ)
  | .num p, .num q => p = q
  | .bool a, .int n => (if a then (1 : ℤ) else 0) = n
  | .int n, .bool a => (if a then (1 : ℤ) else 0) = n
  | .bool a, .num q => (if a then (1 : ℚ) else 0) = q
  | .num q, .bool a => (if a then (1 : ℚ) else 0) = q
  | .bool a, .bool b => a = b
  | .str s, .str t => s = t
  | _, _ => false

/-- DatabaseService._save_property_images (database_service.py, lines
    155-163): one row per image, from its to_dict payload. -/
def savePropertyImages (st : Store) (propertyId : ℕ) (images : List PImage) : Store :=
  images.foldl
    (fun st img =>
      { st with
        images := st.images ++
          [DBImageRow.mk st.nextImageId propertyId img.url img.caption
            img.is_primary img.order_index]
        nextImageId := st.nextImageId + 1 })
    st

/-- DatabaseService._save_property_prices (database_service.py, lines
    196-204). -/
def savePropertyPrices (st : Store) (propertyId : ℕ) (prices : List PPrice) : Store :=
  prices.foldl
    (fun st pr =>
      { st with
        prices := st.prices ++
          [DBPriceRow.mk st.nextPriceId propertyId pr.currency_type
            pr.price_total pr.price_square]
        nextPriceId := st.nextPriceId + 1 })
    st

/-- DatabaseService._save_property_parameters (database_service.py,
    lines 165-194): resolve each external parameter id to the internal
    dictionary row, creating a stub row when missing, then add the
    link row. -/
def savePropertyParameters (st : Store) (propertyId : ℕ) (params : List PParam) : Store :=
  params.foldl
    (fun st param =>
      let extId := param.parameter_id
      let resolved :=
        match st.parameters.find? (fun pr => jEqb pr.external_id extId) with
        | some pr => (st, pr.id)
        | none =>
            let newRow := ParameterRow.mk st.nextParamId extId
              ("param_" ++ pyStr extId) extId "parameter" ("Parameter " ++ pyStr extId)
            let st2 := { st with
              parameters := st.parameters ++ [newRow]
              nextParamId := st.nextParamId + 1 }
            (st2, newRow.id)
      let st := resolved.1
      { st with
        paramLinks := st.paramLinks ++
          [DBParamLinkRow.mk st.nextLinkId propertyId resolved.2
            param.parameter_value param.parameter_select_name]
        nextLinkId := st.nextLinkId + 1 })
    st

/-- Delete a property row together with its dependent rows (cascade on
    the relationships). -/
def deleteProperty (st : Store) (propertyId : ℕ) : Store :=
  { st with
    props := st.props.filter (fun p => p.id ≠ propertyId)
    images := st.images.filter (fun r => r.property_id ≠ propertyId)
    prices := st.prices.filter (fun r => r.property_id ≠ propertyId)
    paramLinks := st.paramLinks.filter (fun r => r.property_id ≠ propertyId) }

/-- DatabaseService.update_property (database_service.py, lines
    241-278): overwrite every scalar field from to_dict, stamp
    updated_at and last_scraped with the current time, delete the old
    related rows, then insert the incoming collections. -/
def updateProperty (st : Store) (propertyId : ℕ) (pd : PropertyData) (now : ℕ) : Store :=
  let base := pd.toDict now
  let newFields := { base with
    updated_at := some (.wall now)
    last_scraped := some (.wall now) }
  let st := { st with
    props := st.props.map (fun (p : DBProperty) =>
      if p.id = propertyId then { p with fields := newFields } else p) }
  let st := { st with
    images := st.images.filter (fun r => r.property_id ≠ propertyId)
    prices := st.prices.filter (fun r => r.property_id ≠ propertyId)
    paramLinks := st.paramLinks.filter (fun r => r.property_id ≠ propertyId) }
  let st := savePropertyImages st propertyId pd.images
  let st := savePropertyParameters st propertyId pd.parameters
  savePropertyPrices st propertyId pd.prices

/-
  MyHomeAdvancedScraper batch path (myhome_scraper.py).  A failure
  oracle says which records of a bulk save raise while being
  constructed or flushed; the per-record except swallows the error and
  the loop continues.
-/

/-- MyHomeAdvancedScraper._ultra_fast_bulk_save (myhome_scraper.py,
    lines 384-413): insert every record whose save does not raise,
    together with its related rows; failing records are skipped and
    counted, nothing is rolled back.  Returns the store and
    saved_count. -/
def bulkSaveStep (ownerId : ℕ) (failAt : ℕ → Bool) (now : ℕ)
    (acc : Store × ℕ) (p : ℕ × PropertyData) : Store × ℕ :=
  if failAt p.1 then acc
  else
    let st := acc.1
    let propId := st.nextPropId
    let fields := p.2.toDict now
    let st := { st with
      props := st.props ++ [DBProperty.mk propId ownerId fields]
      nextPropId := st.nextPropId + 1 }
    let st := savePropertyImages st propId p.2.images
    let st := savePropertyParameters st propId p.2.parameters
    let st := savePropertyPrices st propId p.2.prices
    (st, acc.2 + 1)

def ultraFastBulkSave (st : Store) (props : List PropertyData) (ownerId : ℕ)
    (failAt : ℕ → Bool) (now : ℕ) : Store × ℕ :=
  props.enum.foldl (bulkSaveStep ownerId failAt now) (st, 0)

/-- Lookup in the bulk existence dict of _process_single_batch: the
    dict keyed by str(external_id) keeps the last row per key. -/
def existingLookup (existingList : List DBProperty) (eid : String) : Option DBProperty :=
  existingList.reverse.find? (fun p => p.fields.external_id == eid)

/-- One iteration of the record loop of _process_single_batch
    (myhome_scraper.py, lines 339-364), over the state
    (store, valid_properties). -/
def batchStep (enableOwnerPriority : Bool) (lookup : String → Option DBProperty)
    (state : Store × List PropertyData) (raw : JVal) : Store × List PropertyData :=
  match processProperty raw with
  | none => state
  | some pd =>
      match lookup pd.fields.external_id with
      | some existing =>
          if enableOwnerPriority ∧ isOwnerListing pd ∧ ¬ isOwnerListingFromDb existing then
            (deleteProperty state.1 existing.id, state.2 ++ [pd])
          else state
      | none => (state.1, state.2 ++ [pd])

/-- MyHomeAdvancedScraper._process_single_batch (myhome_scraper.py,
    lines 321-382): bulk existence check by external id, the record
    loop, then one bulk save of the surviving records. -/
def processSingleBatch (st : Store) (raws : List JVal) (enableOwnerPriority : Bool)
    (ownerId : ℕ) (failAt : ℕ → Bool) (now : ℕ) : Store :=
  let externalIds := raws.map (fun r => pyStr (r.get "id" (.str "")))
  let existingList := st.props.filter (fun p => p.fields.external_id ∈ externalIds)
  let lookup := existingLookup existingList
  let res := raws.foldl (batchStep enableOwnerPriority lookup) (st, [])
  if res.2.isEmpty then res.1
  else (ultraFastBulkSave res.1 res.2 ownerId failAt now).1

/-- The new-property filter of _scrape_properties (myhome_scraper.py,
    lines 165-171): keep raw records with a truthy id whose string
    form has not been seen, in order.  (A non-dict page entry would
    raise in Python and skip the whole page; pages delivered by the
    API are lists of objects.) -/
def seenFilter (page : List JVal) : List JVal :=
  (page.foldl
    (fun (acc : List String × List JVal) raw =>
      let pid := raw.get "id" .null
      if pid.truthy ∧ ¬ (pyStr pid ∈ acc.1) then
        (acc.1 ++ [pyStr pid], acc.2 ++ [raw])
      else acc)
    ([], [])).2

/-- One ingestion pass of a page through the batch pipeline: the seen
    filter of _scrape_properties followed by _process_single_batch
    (the page sizes in play never exceed the 1000-record chunking of
    _process_properties_batch). -/
def ingestPass (st : Store) (page : List JVal) (enableOwnerPriority : Bool)
    (ownerId : ℕ) (failAt : ℕ → Bool) (now : ℕ) : Store :=
  processSingleBatch st (seenFilter page) enableOwnerPriority ownerId failAt now

/-- The no-failure oracle: a nominal run in which no record save
    raises. -/
def noFail : ℕ → Bool := fun _ => false

/-
  MyHomeAdvancedScraper._process_single_property (myhome_scraper.py,
  lines 235-281): the per-record conflict-resolution decision taken
  against the duplicate list.
-/

/-- Resolution decision for a candidate. -/
inductive Resolution : Type
  | insertNew
  | replaceExisting
  | skipDuplicate
deriving DecidableEq, Repr

/-- The decision of _process_single_property (lines 246-258): no
    duplicates means a fresh insert; otherwise the first duplicate is
    the existing record and should_replace_duplicate decides between
    replace (delete existing, insert candidate) and skip. -/
def resolveCandidate (enableOwnerPriority : Bool) (pd : PropertyData)
    (duplicates : List DBProperty) : Resolution :=
  match duplicates.head? with
  | none => .insertNew
  | some existing =>
      if shouldReplaceDuplicate enableOwnerPriority pd.fields.user_type
          existing.fields.user_type then .replaceExisting
      else .skipDuplicate

/-
  BaseScraper (core/base_scraper.py): retry loop with exponential
  backoff and the sliding-window rate limiter.
-/

/-- What one HTTP attempt does: succeed, fail with a
    requests.RequestException, or raise some other exception. -/
inductive AttemptOutcome : Type
  | success
  | reqError
  | otherError
deriving DecidableEq, Repr

/-- How make_request ends: a response, or an exception escaping to the
    caller, tagged with the Python exception class actually raised.
    The name NetworkError in the raise statements of base_scraper.py
    (lines 181 and 189) is neither defined in the module nor imported,
    so evaluating NetworkError(...) itself raises the builtin
    NameError; the unexpected-exception branch raises the builtin
    RuntimeError. -/
inductive ReqResult : Type
  | ok
  | raised (exceptionClass : String)
deriving DecidableEq, Repr

/-- The retry loop of make_request (base_scraper.py, lines 143-189)
    from a given attempt index: returns the number of attempts made,
    the backoff sleeps between consecutive attempts in order, and the
    outcome.  On a request failure the loop sleeps
    (2 ** attempt) * delay and retries while attempts remain; the
    raise NetworkError(...) executed after the last attempt (line 181),
    like the fall-through raise after the loop (line 189), raises
    NameError because the name NetworkError is undefined; an
    unexpected exception raises RuntimeError at once. -/
def makeRequestFrom (maxRetries : ℕ) (baseDelay : ℚ) (outcome : ℕ → AttemptOutcome) :
    ℕ → ℕ → ℕ × List ℚ × ReqResult
  | _, 0 => (0, [], .raised "NameError")
  | attempt, remaining + 1 =>
      match outcome attempt with
      | .success => (1, [], .ok)
      | .otherError => (1, [], .raised "RuntimeError")
      | .reqError =>
          if attempt < maxRetries - 1 then
            let rest := makeRequestFrom maxRetries baseDelay outcome (attempt + 1) remaining
            (1 + rest.1, ((2 : ℚ) ^ attempt * baseDelay) :: rest.2.1, rest.2.2)
          else (1, [], .raised "NameError")

/-- BaseScraper.make_request: the loop over range(max_retries). -/
def makeRequest (maxRetries : ℕ) (baseDelay : ℚ) (outcome : ℕ → AttemptOutcome) :
    ℕ × List ℚ × ReqResult :=
  makeRequestFrom maxRetries baseDelay outcome 0 maxRetries

/-- BaseScraper._respect_rate_limit (base_scraper.py, lines 116-130)
    on the recorded timestamp queue at wall time now: evict entries of
    age 60 or more, sleep 60 - (now - oldest) when at capacity, then
    append the PRE-sleep time now.  Returns the new queue and the
    sleep duration (the request is issued at now + sleep). -/
def respectRateLimit (times : List ℚ) (now : ℚ) (limit : ℕ) : List ℚ × ℚ :=
  let kept := times.filter (fun t => now - t < 60)
  let sleep :=
    if kept.length ≥ limit then
      match kept.head? with
      | some oldest => if 60 - (now - oldest) > 0 then 60 - (now - oldest) else 0
      | none => 0
    else 0
  (kept ++ [now], sleep)

/-- Admission times of a tight loop of n fetch calls starting at time
    0: each call enters the limiter at the instant the previous
    admission returned (zero work in between).  State: queue, current
    time, admission times so far. -/
def tightLoop (limit : ℕ) : ℕ → List ℚ × ℚ × List ℚ
  | 0 => ([], 0, [])
  | n + 1 =>
      let s := tightLoop limit n
      let r := respectRateLimit s.1 s.2.1 limit
      (r.1, s.2.1 + r.2, s.2.2 ++ [s.2.1 + r.2])

/-- Number of admissions inside the rolling window [t0, t0 + 60). -/
def admissionsInWindow (admissions : List ℚ) (t0 : ℚ) : ℕ :=
  (admissions.filter (fun t => t0 ≤ t ∧ t < t0 + 60)).length

/-- The image rows written for a property, with ids from startId. -/
def mkImageRows (startId pid : ℕ) : List PImage → List DBImageRow
  | [] => []
  | img :: rest =>
      DBImageRow.mk startId pid img.url img.caption img.is_primary img.order_index ::
        mkImageRows (startId + 1) pid rest

/-- The price rows written for a property, with ids from startId. -/
def mkPriceRows (startId pid : ℕ) : List PPrice → List DBPriceRow
  | [] => []
  | pr :: rest =>
      DBPriceRow.mk startId pid pr.currency_type pr.price_total pr.price_square ::
        mkPriceRows (startId + 1) pid rest

/-- The property rows a bulk save is expected to commit: one per
    non-failing record, with sequential ids from startId. -/
def savedProps (ownerId now : ℕ) (failAt : ℕ → Bool) :
    ℕ → List (ℕ × PropertyData) → List DBProperty
  | _, [] => []
  | startId, p :: rest =>
      if failAt p.1 then savedProps ownerId now failAt startId rest
      else DBProperty.mk startId ownerId (p.2.toDict now) ::
        savedProps ownerId now failAt (startId + 1) rest

/-- What the coordinate tier of find_duplicates contributes: the
    stored rows within tolerance, when both candidate coordinates are
    truthy. -/
def geoTierOf (db : DedupDB) (pd : PropertyData) : List DBProperty :=
  match pd.fields.latitude, pd.fields.longitude with
  | some lat, some lng =>
      if (lat ≠ .finite 0) ∧ (lng ≠ .finite 0) then
        db.props.filter (fun p =>
          ¬ (p.fields.latitude = none) ∧ ¬ (p.fields.longitude = none) ∧
          coordClose p.fields.latitude lat ∧ coordClose p.fields.longitude lng ∧
          p.fields.source == "myhome.ge")
      else []
  | _, _ => []

/-- What the address tier of find_duplicates contributes for a string
    candidate address: the myhome.ge rows outside the exclusion list
    whose stored address scores at least the threshold. -/
def addrTierOf (db : DedupDB) (a : String) (exclude : List DBProperty) :
    List DBProperty :=
  let excludeIds := exclude.map (fun p => p.id)
  let base := db.props.filter (fun p => p.fields.source == "myhome.ge")
  let base := if excludeIds.isEmpty then base
    else base.filter (fun p => ¬ (p.id ∈ excludeIds))
  base.filter (fun p =>
    match p.fields.address with
    | .str s => decide (¬ (s = "") ∧ calculateAddressSimilarity a s ≥ 85 / 100)
    | _ => false)

/-- Stored row hit by the coordinate tier of the tiering scenario. -/
def c2GeoRow : DBProperty :=
  { id := 1, owner_id := 7,
    fields := { external_id := "100",
                address := .str "peikrebi 9",
                latitude := some (.finite 41),
                longitude := some (.finite 44) } }

/-- Stored row hit by the address tier of the tiering scenario. -/
def c2AddrRow : DBProperty :=
  { id := 2, owner_id := 7,
    fields := { external_id := "200",
                address := .str "kostava st 12" } }

/-- Session of the tiering scenario. -/
def c2Db : DedupDB := { props := [c2GeoRow, c2AddrRow], fail := false }

/-- Candidate of the tiering scenario: coordinates matching the first
    stored row, address matching the second. -/
def c2Cand : PropertyData :=
  { fields := { external_id := "300",
                address := .str "kostava st 12",
                latitude := some (.finite 41),
                longitude := some (.finite 44) } }

/-- Stored row of the amended-tiering witness scenario. -/
def c2wRow : DBProperty :=
  { id := 5, owner_id := 3, fields := { external_id := "300", address := .str "abc" } }

/-- Session of the amended-tiering witness scenario. -/
def c2wDb : DedupDB := { props := [c2wRow], fail := false }

/-- Candidate of the amended-tiering witness scenario: exact id hit. -/
def c2wCand : PropertyData :=
  { fields := { external_id := "300", address := .str "" } }

/-- Stored property row of the full-replacement witness scenario. -/
def c9Row : DBProperty := { id := 1, owner_id := 1, fields := { external_id := "X" } }

/-- Old image row of the full-replacement witness scenario. -/
def c9OldImg : DBImageRow :=
  { id := 1, property_id := 1, image_url := "old.jpg", caption := none,
    is_primary := .bool true, order_index := 0 }

/-- Old price row of the full-replacement witness scenario. -/
def c9OldPrice : DBPriceRow :=
  { id := 1, property_id := 1, currency_type := "USD", price_total := 100,
    price_square := 0 }

/-- Old parameter link row of the full-replacement witness scenario. -/
def c9OldLink : DBParamLinkRow :=
  { id := 1, property_id := 1, parameter_id := 1, parameter_value := .int 1,
    parameter_select_name := .null }

/-- Store of the full-replacement witness scenario. -/
def c9St : Store :=
  { props := [c9Row], images := [c9OldImg], prices := [c9OldPrice],
    paramLinks := [c9OldLink], parameters := [],
    nextPropId := 2, nextImageId := 2, nextPriceId := 2, nextLinkId := 2,
    nextParamId := 1 }

/-- Incoming record of the full-replacement witness scenario. -/
def c9New : PropertyData :=
  { fields := { external_id := "X" },
    images := [{ url := "new.jpg" }],
    prices := [{ currency_type := "GEL", price_total := 250 }],
    parameters := [{ parameter_id := .int 7 }] }

/-
  Theorems.
-/

/-- C1: for every candidate and every existing matched record (the
    head of the duplicate list), the resolution decision of
    _process_single_property is replace exactly when owner-priority is
    enabled, the candidate userType is owner and the existing userType
    is not owner; in every other matched case the existing record is
    kept and the candidate discarded as a duplicate. -/
theorem C1_owner_priority_replacement (enableOwnerPriority : Bool)
    (pd : PropertyData) (existing : DBProperty) (rest : List DBProperty) :
    resolveCandidate enableOwnerPriority pd (existing :: rest) =
      (if enableOwnerPriority = true ∧ pd.fields.user_type = "owner" ∧
          existing.fields.user_type ≠ "owner"
       then .replaceExisting else .skipDuplicate) := by
  unfold resolveCandidate shouldReplaceDuplicate
  cases enableOwnerPriority with
  | false => simp
  | true =>
      by_cases hnew : pd.fields.user_type = "owner" <;>
        by_cases hex : existing.fields.user_type = "owner" <;>
          simp [hnew, hex, List.head?]

/-- C10: if the duplicate search raises internally, find_duplicates
    catches the error and returns the empty list, so the candidate is
    resolved as a brand-new record instead of aborting the run. -/
theorem C10_find_duplicates_swallows_errors (db : DedupDB) (pd : PropertyData)
    (e : PyErr) (enableOwnerPriority : Bool)
    (h : findDuplicatesBody db pd = .error e) :
    findDuplicates db pd = [] ∧
      resolveCandidate enableOwnerPriority pd (findDuplicates db pd) = .insertNew := by
  have hempty : findDuplicates db pd = [] := by
    unfold findDuplicates
    rw [h]
  refine ⟨hempty, ?_⟩
  rw [hempty]
  rfl

/-- Witness for C10 at a concrete failing session: with the failure
    flag set the very first query raises and the candidate is treated
    as new. -/
theorem C10_witness :
    findDuplicates { props := [], fail := true }
        { fields := { external_id := "7" } } = [] ∧
      resolveCandidate true { fields := { external_id := "7" } }
        (findDuplicates { props := [], fail := true }
          { fields := { external_id := "7" } }) = .insertNew :=
  C10_find_duplicates_swallows_errors { props := [], fail := true }
    { fields := { external_id := "7" } } .dbError true rfl

/-- The retry loop under a permanently failing URL, unrolled from any
    attempt index: the remaining iterations all fail, sleeping
    (2 ** attempt) * delay between consecutive attempts, and end in
    the NameError raised by the undefined name NetworkError. -/
theorem makeRequestFrom_allfail (m : ℕ) (b : ℚ) (outcome : ℕ → AttemptOutcome)
    (hfail : ∀ i, outcome i = .reqError) :
    ∀ r a, a + r = m →
      makeRequestFrom m b outcome a r =
        (r, (List.range (r - 1)).map (fun i => (2 : ℚ) ^ (a + i) * b),
          .raised "NameError") := by
  intro r
  induction r with
  | zero => intro a _; rfl
  | succ n ih =>
      intro a ha
      cases n with
      | zero =>
          have hlt : ¬ a < m - 1 := by omega
          simp [makeRequestFrom, hfail a, hlt]
      | succ k =>
          have hlt : a < m - 1 := by omega
          have hrec := ih (a + 1) (by omega)
          rw [makeRequestFrom]
          simp only [hfail a, if_pos hlt, hrec]
          simp only [Prod.mk.injEq]
          refine ⟨by omega, ?_, trivial⟩
          rw [Nat.succ_sub_one, Nat.succ_sub_one, List.range_succ_eq_map,
            List.map_cons, List.map_map]
          refine congrArg₂ _ (by rw [Nat.add_zero]) ?_
          refine List.map_congr_left (fun i _ => ?_)
          rw [Function.comp_apply, show a + 1 + i = a + (i + 1) from by omega]

/-- C3 counterexample: with max_retries 3 and every attempt failing,
    make_request makes its three attempts and then surfaces a
    NameError, not a NetworkError: the name NetworkError is neither
    defined nor imported in base_scraper.py, so the raise at line 181
    itself fails while evaluating NetworkError(...). -/
theorem C3_counterexample_undefined_network_error :
    (makeRequest 3 (1 / 100) (fun _ => .reqError)).2.2 = .raised "NameError" ∧
    ReqResult.raised "NameError" ≠ ReqResult.raised "NetworkError" := by
  constructor
  · rw [show makeRequest 3 (1 / 100) (fun _ => .reqError) =
        makeRequestFrom 3 (1 / 100) (fun _ => .reqError) 0 3 from rfl]
    rw [makeRequestFrom_allfail 3 (1 / 100) (fun _ => .reqError) (fun _ => rfl) 3 0 rfl]
  · decide

/-- C3 (amended): a fetch failing on every attempt makes exactly
    maxRetries attempts and sleeps delay * 2 ** attempt between
    consecutive attempts (a strictly increasing sequence when the base
    delay is positive); exactly one exception then surfaces to the
    caller, but it is a NameError, not a NetworkError - the name
    NetworkError used by the raise is undefined in the module. -/
theorem C3_retry_exhaustion_amended (m : ℕ) (b : ℚ) (outcome : ℕ → AttemptOutcome)
    (hfail : ∀ i, outcome i = .reqError) :
    makeRequest m b outcome =
      (m, (List.range (m - 1)).map (fun i => (2 : ℚ) ^ i * b),
        .raised "NameError") ∧
    (0 < b →
      ((List.range (m - 1)).map (fun i => (2 : ℚ) ^ i * b)).Pairwise (· < ·)) := by
  constructor
  · have h := makeRequestFrom_allfail m b outcome hfail m 0 (by omega)
    unfold makeRequest
    rw [h]
    refine congrArg₂ _ rfl (congrArg₂ _ ?_ rfl)
    exact List.map_congr_left (fun i _ => by rw [Nat.zero_add])
  · intro hb
    refine List.Pairwise.map _ ?_ (List.pairwise_lt_range (m - 1))
    intro x y hxy
    exact mul_lt_mul_of_pos_right
      (pow_lt_pow_right₀ (by norm_num) hxy) hb

/-- Witness for the amended C3: three failing attempts with base delay
    1/100 give three attempts, sleeps 1/100 then 1/50 (strictly
    increasing), and a surfaced NameError. -/
theorem C3_amended_witness :
    makeRequest 3 (1 / 100) (fun _ => .reqError) =
      (3, [1 / 100, 1 / 50], .raised "NameError") ∧
    ([(1 : ℚ) / 100, 1 / 50].Pairwise (· < ·)) := by
  constructor
  · rw [(C3_retry_exhaustion_amended 3 (1 / 100) (fun _ => .reqError) (fun _ => rfl)).1]
    norm_num [List.range_succ, Prod.ext_iff]
  · norm_num [List.pairwise_cons]

/-- C4: the sliding-window limiter records the pre-sleep call time, so
    in a tight loop at limit 2 the admissions are 0, 0, 60, 60, 60,
    120: the call that slept is admitted at t = 60 with its recorded
    timestamp 0 already evicted, and the window [30, 90) holds three
    admitted requests, exceeding the configured limit of 2. -/
theorem C4_rate_limit_window_exceeded :
    (tightLoop 2 6).2.2 = [0, 0, 60, 60, 60, 120] ∧
    admissionsInWindow (tightLoop 2 6).2.2 30 = 3 ∧ 2 < 3 := by
  have htrace : (tightLoop 2 6).2.2 = [0, 0, 60, 60, 60, 120] := by
    norm_num [tightLoop, respectRateLimit]
  refine ⟨htrace, ?_, by norm_num⟩
  rw [htrace]
  norm_num [admissionsInWindow]

/-- Parsing a float from a string yields a value or a ValueError. -/
theorem pyFloatOfStr_spec (s : String) :
    (∃ f, pyFloatOfStr s = .ok f) ∨ pyFloatOfStr s = .error .valueError := by
  unfold pyFloatOfStr
  cases parseSignedFloat (stripStr s).data
  · right; rfl
  · left; exact ⟨_, rfl⟩

/-- int() on a float yields a value or an OverflowError. -/
theorem pyIntOfFloat_spec (f : PyFloat) :
    (∃ n, pyIntOfFloat f = .ok n) ∨ pyIntOfFloat f = .error .overflowError := by
  cases f
  · left; exact ⟨_, rfl⟩
  · right; rfl
  · right; rfl

/-- float() on a value yields a value, a TypeError, a ValueError, or
    an OverflowError. -/
theorem pyFloat_spec (v : JVal) :
    (∃ f, pyFloat v = .ok f) ∨ pyFloat v = .error .valueError ∨
      pyFloat v = .error .typeError ∨ pyFloat v = .error .overflowError := by
  cases v with
  | null => right; right; left; rfl
  | bool b => left; exact ⟨_, rfl⟩
  | int n =>
      simp only [pyFloat]
      split
      · right; right; right; rfl
      · left; exact ⟨_, rfl⟩
  | num q => left; exact ⟨_, rfl⟩
  | str s =>
      rcases pyFloatOfStr_spec s with ⟨f, hf⟩ | hf
      · left; exact ⟨f, hf⟩
      · right; left; exact hf
  | list xs => right; right; left; rfl
  | dict kvs => right; right; left; rfl

/-- The composition int(float(v)) yields a value, a TypeError, a
    ValueError, or an OverflowError. -/
theorem intOfFloatOfJVal_spec (v : JVal) :
    (∃ n, (do let f ← pyFloat v; pyIntOfFloat f : Except PyErr ℤ) = .ok n) ∨
      (do let f ← pyFloat v; pyIntOfFloat f : Except PyErr ℤ) = .error .valueError ∨
      (do let f ← pyFloat v; pyIntOfFloat f : Except PyErr ℤ) = .error .typeError ∨
      (do let f ← pyFloat v; pyIntOfFloat f : Except PyErr ℤ) = .error .overflowError := by
  rcases pyFloat_spec v with ⟨f, hf⟩ | hf | hf | hf
  · rcases pyIntOfFloat_spec f with ⟨n, hn⟩ | hn
    · left; exact ⟨n, by rw [hf]; simpa [Except.bind] using hn⟩
    · right; right; right; rw [hf]; simpa [Except.bind] using hn
  · right; left; rw [hf]; rfl
  · right; right; left; rw [hf]; rfl
  · right; right; right; rw [hf]; rfl

/-- A string parse followed by int() yields a value, a ValueError, or
    an OverflowError. -/
theorem intOfFloatOfStr_spec (s : String) :
    (∃ n, (do let f ← pyFloatOfStr s; pyIntOfFloat f : Except PyErr ℤ) = .ok n) ∨
      (do let f ← pyFloatOfStr s; pyIntOfFloat f : Except PyErr ℤ) = .error .valueError ∨
      (do let f ← pyFloatOfStr s; pyIntOfFloat f : Except PyErr ℤ) = .error .overflowError := by
  rcases pyFloatOfStr_spec s with ⟨f, hf⟩ | hf
  · rcases pyIntOfFloat_spec f with ⟨n, hn⟩ | hn
    · left; exact ⟨n, by rw [hf]; simpa [Except.bind] using hn⟩
    · right; right; rw [hf]; simpa [Except.bind] using hn
  · right; left; rw [hf]; rfl

/-- Catching ValueError and TypeError leaves only OverflowError of the
    possible body errors. -/
theorem pyCatch_vt_spec {α : Type} (body : Except PyErr α) (dflt : α)
    (hbody : (∃ a, body = .ok a) ∨ body = .error .valueError ∨
      body = .error .typeError ∨ body = .error .overflowError) :
    (∃ a, pyCatch [.valueError, .typeError] body dflt = .ok a) ∨
      pyCatch [.valueError, .typeError] body dflt = .error .overflowError := by
  rcases hbody with ⟨a, h⟩ | h | h | h <;> rw [h] <;> simp [pyCatch]

/-- Error budget of the DataProcessor safe int body. -/
theorem dpSafeIntBody_spec (v : JVal) (d : ℤ) :
    (∃ n, dpSafeIntBody v d = .ok n) ∨ dpSafeIntBody v d = .error .valueError ∨
      dpSafeIntBody v d = .error .typeError ∨
      dpSafeIntBody v d = .error .overflowError := by
  cases v with
  | str s =>
      simp only [dpSafeIntBody]
      split
      · left; exact ⟨_, rfl⟩
      · rcases intOfFloatOfStr_spec (stripStr (rstripChar s '+')) with ⟨n, hn⟩ | hn | hn
        · left; exact ⟨n, hn⟩
        · right; left; exact hn
        · right; right; right; exact hn
  | null => simp only [dpSafeIntBody]; exact intOfFloatOfJVal_spec .null
  | bool b => simp only [dpSafeIntBody]; exact intOfFloatOfJVal_spec (.bool b)
  | int n => simp only [dpSafeIntBody]; exact intOfFloatOfJVal_spec (.int n)
  | num q => simp only [dpSafeIntBody]; exact intOfFloatOfJVal_spec (.num q)
  | list xs => simp only [dpSafeIntBody]; exact intOfFloatOfJVal_spec (.list xs)
  | dict kvs => simp only [dpSafeIntBody]; exact intOfFloatOfJVal_spec (.dict kvs)

/-- Error budget of the helpers safe int body. -/
theorem helpersSafeIntBody_spec (v : JVal) (d : ℤ) :
    (∃ n, helpersSafeIntBody v d = .ok n) ∨
      helpersSafeIntBody v d = .error .valueError ∨
      helpersSafeIntBody v d = .error .typeError ∨
      helpersSafeIntBody v d = .error .overflowError := by
  cases v with
  | str s =>
      simp only [helpersSafeIntBody]
      split
      · left; exact ⟨_, rfl⟩
      · rcases intOfFloatOfStr_spec (strReplace (stripStr (rstripChar s '+')) "," "") with
          ⟨n, hn⟩ | hn | hn
        · left; exact ⟨n, hn⟩
        · right; left; exact hn
        · right; right; right; exact hn
  | null => simp only [helpersSafeIntBody]; exact intOfFloatOfJVal_spec .null
  | bool b => simp only [helpersSafeIntBody]; exact intOfFloatOfJVal_spec (.bool b)
  | int n => simp only [helpersSafeIntBody]; exact intOfFloatOfJVal_spec (.int n)
  | num q => simp only [helpersSafeIntBody]; exact intOfFloatOfJVal_spec (.num q)
  | list xs => simp only [helpersSafeIntBody]; exact intOfFloatOfJVal_spec (.list xs)
  | dict kvs => simp only [helpersSafeIntBody]; exact intOfFloatOfJVal_spec (.dict kvs)

/-- Error budget of the DataProcessor safe float body. -/
theorem dpSafeFloatBody_spec (v : JVal) (d : ℚ) :
    (∃ f, dpSafeFloatBody v d = .ok f) ∨ dpSafeFloatBody v d = .error .valueError ∨
      dpSafeFloatBody v d = .error .typeError ∨
      dpSafeFloatBody v d = .error .overflowError := by
  cases v with
  | str s =>
      simp only [dpSafeFloatBody]
      split
      · left; exact ⟨_, rfl⟩
      · rcases pyFloatOfStr_spec (stripStr (rstripChar s '+')) with ⟨f, hf⟩ | hf
        · left; exact ⟨f, hf⟩
        · right; left; exact hf
  | null => simp only [dpSafeFloatBody]; exact pyFloat_spec .null
  | bool b => simp only [dpSafeFloatBody]; exact pyFloat_spec (.bool b)
  | int n => simp only [dpSafeFloatBody]; exact pyFloat_spec (.int n)
  | num q => simp only [dpSafeFloatBody]; exact pyFloat_spec (.num q)
  | list xs => simp only [dpSafeFloatBody]; exact pyFloat_spec (.list xs)
  | dict kvs => simp only [dpSafeFloatBody]; exact pyFloat_spec (.dict kvs)

/-- Error budget of the helpers safe float body. -/
theorem helpersSafeFloatBody_spec (v : JVal) (d : ℚ) :
    (∃ f, helpersSafeFloatBody v d = .ok f) ∨
      helpersSafeFloatBody v d = .error .valueError ∨
      helpersSafeFloatBody v d = .error .typeError ∨
      helpersSafeFloatBody v d = .error .overflowError := by
  cases v with
  | str s =>
      simp only [helpersSafeFloatBody]
      split
      · left; exact ⟨_, rfl⟩
      · rcases pyFloatOfStr_spec (strReplace (stripStr (rstripChar s '+')) "," "") with
          ⟨f, hf⟩ | hf
        · left; exact ⟨f, hf⟩
        · right; left; exact hf
  | null => simp only [helpersSafeFloatBody]; exact pyFloat_spec .null
  | bool b => simp only [helpersSafeFloatBody]; exact pyFloat_spec (.bool b)
  | int n => simp only [helpersSafeFloatBody]; exact pyFloat_spec (.int n)
  | num q => simp only [helpersSafeFloatBody]; exact pyFloat_spec (.num q)
  | list xs => simp only [helpersSafeFloatBody]; exact pyFloat_spec (.list xs)
  | dict kvs => simp only [helpersSafeFloatBody]; exact pyFloat_spec (.dict kvs)

/-- The DataProcessor safe int conversion returns a value for every
    input except the modelled float-overflow corner. -/
theorem dpSafeInt_total (v : JVal) (d : ℤ) :
    (∃ n, dpSafeInt v d = .ok n) ∨ dpSafeInt v d = .error .overflowError := by
  cases v with
  | null => left; exact ⟨d, rfl⟩
  | bool b => simp only [dpSafeInt]; exact pyCatch_vt_spec _ _ (dpSafeIntBody_spec (.bool b) d)
  | int n => simp only [dpSafeInt]; exact pyCatch_vt_spec _ _ (dpSafeIntBody_spec (.int n) d)
  | num q => simp only [dpSafeInt]; exact pyCatch_vt_spec _ _ (dpSafeIntBody_spec (.num q) d)
  | str s => simp only [dpSafeInt]; exact pyCatch_vt_spec _ _ (dpSafeIntBody_spec (.str s) d)
  | list xs => simp only [dpSafeInt]; exact pyCatch_vt_spec _ _ (dpSafeIntBody_spec (.list xs) d)
  | dict kvs => simp only [dpSafeInt]; exact pyCatch_vt_spec _ _ (dpSafeIntBody_spec (.dict kvs) d)

/-- The helpers safe int conversion returns a value for every input
    except the modelled float-overflow corner. -/
theorem helpersSafeInt_total (v : JVal) (d : ℤ) :
    (∃ n, helpersSafeInt v d = .ok n) ∨ helpersSafeInt v d = .error .overflowError := by
  cases v with
  | null => left; exact ⟨d, rfl⟩
  | bool b => simp only [helpersSafeInt]; exact pyCatch_vt_spec _ _ (helpersSafeIntBody_spec (.bool b) d)
  | int n => simp only [helpersSafeInt]; exact pyCatch_vt_spec _ _ (helpersSafeIntBody_spec (.int n) d)
  | num q => simp only [helpersSafeInt]; exact pyCatch_vt_spec _ _ (helpersSafeIntBody_spec (.num q) d)
  | str s => simp only [helpersSafeInt]; exact pyCatch_vt_spec _ _ (helpersSafeIntBody_spec (.str s) d)
  | list xs => simp only [helpersSafeInt]; exact pyCatch_vt_spec _ _ (helpersSafeIntBody_spec (.list xs) d)
  | dict kvs => simp only [helpersSafeInt]; exact pyCatch_vt_spec _ _ (helpersSafeIntBody_spec (.dict kvs) d)

/-- The DataProcessor safe float conversion returns a value for every
    input except the modelled float-overflow corner. -/
theorem dpSafeFloat_total (v : JVal) (d : ℚ) :
    (∃ f, dpSafeFloat v d = .ok f) ∨ dpSafeFloat v d = .error .overflowError := by
  cases v with
  | null => left; exact ⟨_, rfl⟩
  | bool b => simp only [dpSafeFloat]; exact pyCatch_vt_spec _ _ (dpSafeFloatBody_spec (.bool b) d)
  | int n => simp only [dpSafeFloat]; exact pyCatch_vt_spec _ _ (dpSafeFloatBody_spec (.int n) d)
  | num q => simp only [dpSafeFloat]; exact pyCatch_vt_spec _ _ (dpSafeFloatBody_spec (.num q) d)
  | str s => simp only [dpSafeFloat]; exact pyCatch_vt_spec _ _ (dpSafeFloatBody_spec (.str s) d)
  | list xs => simp only [dpSafeFloat]; exact pyCatch_vt_spec _ _ (dpSafeFloatBody_spec (.list xs) d)
  | dict kvs => simp only [dpSafeFloat]; exact pyCatch_vt_spec _ _ (dpSafeFloatBody_spec (.dict kvs) d)

/-- The helpers safe float conversion returns a value for every input
    except the modelled float-overflow corner. -/
theorem helpersSafeFloat_total (v : JVal) (d : ℚ) :
    (∃ f, helpersSafeFloat v d = .ok f) ∨ helpersSafeFloat v d = .error .overflowError := by
  cases v with
  | null => left; exact ⟨_, rfl⟩
  | bool b => simp only [helpersSafeFloat]; exact pyCatch_vt_spec _ _ (helpersSafeFloatBody_spec (.bool b) d)
  | int n => simp only [helpersSafeFloat]; exact pyCatch_vt_spec _ _ (helpersSafeFloatBody_spec (.int n) d)
  | num q => simp only [helpersSafeFloat]; exact pyCatch_vt_spec _ _ (helpersSafeFloatBody_spec (.num q) d)
  | str s => simp only [helpersSafeFloat]; exact pyCatch_vt_spec _ _ (helpersSafeFloatBody_spec (.str s) d)
  | list xs => simp only [helpersSafeFloat]; exact pyCatch_vt_spec _ _ (helpersSafeFloatBody_spec (.list xs) d)
  | dict kvs => simp only [helpersSafeFloat]; exact pyCatch_vt_spec _ _ (helpersSafeFloatBody_spec (.dict kvs) d)

/-- C8 (amended): the safe conversions raise only in the
    float-overflow corner (ValueError and TypeError are caught);
    trailing plus signs are stripped and the remainder parsed; noisy
    strings degrade to the default; a thousands-separated string
    degrades to the default in the DataProcessor variants but is
    parsed as a number by the helpers variant. -/
theorem C8_safe_coercion_amended :
    (∀ (v : JVal) (d : ℤ),
      (∃ n, dpSafeInt v d = .ok n) ∨ dpSafeInt v d = .error .overflowError) ∧
    (∀ (v : JVal) (d : ℚ),
      (∃ f, dpSafeFloat v d = .ok f) ∨ dpSafeFloat v d = .error .overflowError) ∧
    (∀ (v : JVal) (d : ℤ),
      (∃ n, helpersSafeInt v d = .ok n) ∨ helpersSafeInt v d = .error .overflowError) ∧
    (∀ (v : JVal) (d : ℚ),
      (∃ f, helpersSafeFloat v d = .ok f) ∨ helpersSafeFloat v d = .error .overflowError) ∧
    (∀ d : ℤ, dpSafeInt (.str "12+") d = .ok 12) ∧
    (∀ d : ℤ, helpersSafeInt (.str "12+") d = .ok 12) ∧
    (∀ d : ℤ, dpSafeInt (.str "1,200") d = .ok d) ∧
    (∀ d : ℚ, dpSafeFloat (.str "1,200") d = .ok (.finite d)) ∧
    (∀ d : ℤ, helpersSafeInt (.str "1,200") d = .ok 1200) ∧
    (∀ d : ℤ, dpSafeInt (.str "12a") d = .ok d) ∧
    (∀ d : ℤ, helpersSafeInt (.str "12a") d = .ok d) :=
  ⟨dpSafeInt_total, dpSafeFloat_total, helpersSafeInt_total, helpersSafeFloat_total,
    fun _ => rfl, fun _ => rfl, fun _ => rfl, fun _ => rfl, fun _ => rfl,
    fun _ => rfl, fun _ => rfl⟩

/-- C8 counterexample: helpers.safe_int parses a thousands-separated
    string to its numeric value instead of degrading to the supplied
    default. -/
theorem C8_counterexample_thousands_separator :
    helpersSafeInt (.str "1,200") 0 = .ok 1200 ∧ (1200 : ℤ) ≠ 0 :=
  ⟨rfl, by norm_num⟩

/-- Saving images touches only the images table and its counter. -/
theorem saveImages_spec (imgs : List PImage) : ∀ (st : Store) (pid : ℕ),
    (savePropertyImages st pid imgs).images = st.images ++ mkImageRows st.nextImageId pid imgs ∧
    (savePropertyImages st pid imgs).nextImageId = st.nextImageId + imgs.length ∧
    (savePropertyImages st pid imgs).props = st.props ∧
    (savePropertyImages st pid imgs).prices = st.prices ∧
    (savePropertyImages st pid imgs).paramLinks = st.paramLinks ∧
    (savePropertyImages st pid imgs).parameters = st.parameters ∧
    (savePropertyImages st pid imgs).nextPropId = st.nextPropId ∧
    (savePropertyImages st pid imgs).nextPriceId = st.nextPriceId ∧
    (savePropertyImages st pid imgs).nextLinkId = st.nextLinkId ∧
    (savePropertyImages st pid imgs).nextParamId = st.nextParamId := by
  induction imgs with
  | nil => intro st pid; simp [savePropertyImages, mkImageRows]
  | cons img rest ih =>
      intro st pid
      have h2 := ih { st with
        images := st.images ++
          [DBImageRow.mk st.nextImageId pid img.url img.caption
            img.is_primary img.order_index]
        nextImageId := st.nextImageId + 1 } pid
      have hfold : savePropertyImages st pid (img :: rest) =
          savePropertyImages { st with
            images := st.images ++
              [DBImageRow.mk st.nextImageId pid img.url img.caption
                img.is_primary img.order_index]
            nextImageId := st.nextImageId + 1 } pid rest := rfl
      rw [hfold]
      obtain ⟨e1, e2, e3, e4, e5, e6, e7, e8, e9, e10⟩ := h2
      refine ⟨?_, ?_, e3, e4, e5, e6, e7, e8, e9, e10⟩
      · rw [e1]
        simp [mkImageRows]
      · rw [e2]
        simp [List.length_cons]
        omega

/-- Saving prices touches only the prices table and its counter. -/
theorem savePrices_spec (prs : List PPrice) : ∀ (st : Store) (pid : ℕ),
    (savePropertyPrices st pid prs).prices = st.prices ++ mkPriceRows st.nextPriceId pid prs ∧
    (savePropertyPrices st pid prs).nextPriceId = st.nextPriceId + prs.length ∧
    (savePropertyPrices st pid prs).props = st.props ∧
    (savePropertyPrices st pid prs).images = st.images ∧
    (savePropertyPrices st pid prs).paramLinks = st.paramLinks ∧
    (savePropertyPrices st pid prs).parameters = st.parameters ∧
    (savePropertyPrices st pid prs).nextPropId = st.nextPropId ∧
    (savePropertyPrices st pid prs).nextImageId = st.nextImageId ∧
    (savePropertyPrices st pid prs).nextLinkId = st.nextLinkId ∧
    (savePropertyPrices st pid prs).nextParamId = st.nextParamId := by
  induction prs with
  | nil => intro st pid; simp [savePropertyPrices, mkPriceRows]
  | cons pr rest ih =>
      intro st pid
      have h2 := ih { st with
        prices := st.prices ++
          [DBPriceRow.mk st.nextPriceId pid pr.currency_type pr.price_total pr.price_square]
        nextPriceId := st.nextPriceId + 1 } pid
      have hfold : savePropertyPrices st pid (pr :: rest) =
          savePropertyPrices { st with
            prices := st.prices ++
              [DBPriceRow.mk st.nextPriceId pid pr.currency_type pr.price_total
                pr.price_square]
            nextPriceId := st.nextPriceId + 1 } pid rest := rfl
      rw [hfold]
      obtain ⟨e1, e2, e3, e4, e5, e6, e7, e8, e9, e10⟩ := h2
      refine ⟨?_, ?_, e3, e4, e5, e6, e7, e8, e9, e10⟩
      · rw [e1]
        simp [mkPriceRows]
      · rw [e2]
        simp [List.length_cons]
        omega

/-- Saving parameter links appends link rows whose projected payload is
    the incoming parameter list, with fresh ids; only the link and
    parameter-dictionary tables and their counters change. -/
theorem saveParams_spec (ps : List PParam) : ∀ (st : Store) (pid : ℕ),
    ∃ linkRows,
    (savePropertyParameters st pid ps).paramLinks = st.paramLinks ++ linkRows ∧
    linkRows.map (fun r => (r.parameter_value, r.parameter_select_name)) =
      ps.map (fun p => (p.parameter_value, p.parameter_select_name)) ∧
    (∀ r ∈ linkRows, r.property_id = pid ∧ st.nextLinkId ≤ r.id) ∧
    (savePropertyParameters st pid ps).props = st.props ∧
    (savePropertyParameters st pid ps).images = st.images ∧
    (savePropertyParameters st pid ps).prices = st.prices ∧
    (savePropertyParameters st pid ps).nextPropId = st.nextPropId ∧
    (savePropertyParameters st pid ps).nextImageId = st.nextImageId ∧
    (savePropertyParameters st pid ps).nextPriceId = st.nextPriceId ∧
    st.nextLinkId ≤ (savePropertyParameters st pid ps).nextLinkId := by
  induction ps with
  | nil =>
      intro st pid
      exact ⟨[], by simp [savePropertyParameters], by simp, by simp,
        rfl, rfl, rfl, rfl, rfl, rfl, le_refl _⟩
  | cons p rest ih =>
      intro st pid
      set st1 :=
        (match st.parameters.find? (fun pr => jEqb pr.external_id p.parameter_id) with
        | some pr => (st, pr.id)
        | none =>
            let newRow := ParameterRow.mk st.nextParamId p.parameter_id
              ("param_" ++ pyStr p.parameter_id) p.parameter_id "parameter"
              ("Parameter " ++ pyStr p.parameter_id)
            let st2 := { st with
              parameters := st.parameters ++ [newRow]
              nextParamId := st.nextParamId + 1 }
            (st2, newRow.id)) with hst1
      have hfields : st1.1.paramLinks = st.paramLinks ∧ st1.1.props = st.props ∧
          st1.1.images = st.images ∧ st1.1.prices = st.prices ∧
          st1.1.nextPropId = st.nextPropId ∧ st1.1.nextImageId = st.nextImageId ∧
          st1.1.nextPriceId = st.nextPriceId ∧ st1.1.nextLinkId = st.nextLinkId := by
        rw [hst1]
        cases st.parameters.find? (fun pr => jEqb pr.external_id p.parameter_id) <;>
          exact ⟨rfl, rfl, rfl, rfl, rfl, rfl, rfl, rfl⟩
      set newLink := DBParamLinkRow.mk st1.1.nextLinkId pid st1.2
        p.parameter_value p.parameter_select_name with hnl
      set stAfter := { st1.1 with
        paramLinks := st1.1.paramLinks ++ [newLink]
        nextLinkId := st1.1.nextLinkId + 1 } with hsa
      have hfold : savePropertyParameters st pid (p :: rest) =
          savePropertyParameters stAfter pid rest := rfl
      obtain ⟨l2, f1, f2, f3, f4, f5, f6, f7, f8, f9, f10⟩ := ih stAfter pid
      refine ⟨newLink :: l2, ?_, ?_, ?_, ?_, ?_, ?_, ?_, ?_, ?_, ?_⟩
      · rw [hfold, f1]
        simp [hsa, hfields.1]
      · simp [f2, hnl]
      · intro r hr
        rcases List.mem_cons.mp hr with hr2 | hr2
        · subst hr2
          exact ⟨rfl, by rw [hnl]; exact le_of_eq hfields.2.2.2.2.2.2.2.symm⟩
        · have := f3 r hr2
          refine ⟨this.1, ?_⟩
          have h1 : stAfter.nextLinkId = st.nextLinkId + 1 := by
            rw [hsa]; simp [hfields.2.2.2.2.2.2.2]
          omega
      · rw [hfold, f4, hsa]; exact hfields.2.1
      · rw [hfold, f5, hsa]; exact hfields.2.2.1
      · rw [hfold, f6, hsa]; exact hfields.2.2.2.1
      · rw [hfold, f7, hsa]; exact hfields.2.2.2.2.1
      · rw [hfold, f8, hsa]; exact hfields.2.2.2.2.2.1
      · rw [hfold, f9, hsa]; exact hfields.2.2.2.2.2.2.1
      · rw [hfold]
        have h1 : stAfter.nextLinkId = st.nextLinkId + 1 := by
          rw [hsa]; simp [hfields.2.2.2.2.2.2.2]
        omega

/-- One successful bulk-save step appends exactly one property row. -/
theorem bulkSaveStep_props (ownerId : ℕ) (failAt : ℕ → Bool) (now : ℕ)
    (acc : Store × ℕ) (p : ℕ × PropertyData) (h : failAt p.1 = false) :
    (bulkSaveStep ownerId failAt now acc p).1.props =
      acc.1.props ++ [DBProperty.mk acc.1.nextPropId ownerId (p.2.toDict now)] ∧
    (bulkSaveStep ownerId failAt now acc p).1.nextPropId = acc.1.nextPropId + 1 ∧
    (bulkSaveStep ownerId failAt now acc p).2 = acc.2 + 1 := by
  have hgoal : bulkSaveStep ownerId failAt now acc p =
      (savePropertyPrices
        (savePropertyParameters
          (savePropertyImages { acc.1 with
              props := acc.1.props ++
                [DBProperty.mk acc.1.nextPropId ownerId (p.2.toDict now)]
              nextPropId := acc.1.nextPropId + 1 } acc.1.nextPropId p.2.images)
          acc.1.nextPropId p.2.parameters)
        acc.1.nextPropId p.2.prices,
      acc.2 + 1) := by
    unfold bulkSaveStep
    rw [h]
    simp only [Bool.false_eq_true, if_false]
  rw [hgoal]
  obtain ⟨_, _, r3, _, _, _, r7, _, _, _⟩ := savePrices_spec p.2.prices
    (savePropertyParameters
      (savePropertyImages { acc.1 with
          props := acc.1.props ++
            [DBProperty.mk acc.1.nextPropId ownerId (p.2.toDict now)]
          nextPropId := acc.1.nextPropId + 1 } acc.1.nextPropId p.2.images)
      acc.1.nextPropId p.2.parameters) acc.1.nextPropId
  obtain ⟨_L, _, _, _, q4, _, _, q7, _, _, _⟩ := saveParams_spec p.2.parameters
    (savePropertyImages { acc.1 with
        props := acc.1.props ++
          [DBProperty.mk acc.1.nextPropId ownerId (p.2.toDict now)]
        nextPropId := acc.1.nextPropId + 1 } acc.1.nextPropId p.2.images)
    acc.1.nextPropId
  obtain ⟨_, _, i3, _, _, _, i7, _, _, _⟩ := saveImages_spec p.2.images
    { acc.1 with
      props := acc.1.props ++
        [DBProperty.mk acc.1.nextPropId ownerId (p.2.toDict now)]
      nextPropId := acc.1.nextPropId + 1 } acc.1.nextPropId
  refine ⟨?_, ?_, rfl⟩
  · rw [r3, q4, i3]
  · rw [r7, q7, i7]

/-- The bulk-save fold commits the previous rows plus one row per
    non-failing record. -/
theorem bulkSave_fold_spec (ownerId now : ℕ) (failAt : ℕ → Bool) :
    ∀ (l : List (ℕ × PropertyData)) (st : Store) (c : ℕ),
    (l.foldl (bulkSaveStep ownerId failAt now) (st, c)).1.props =
      st.props ++ savedProps ownerId now failAt st.nextPropId l ∧
    (l.foldl (bulkSaveStep ownerId failAt now) (st, c)).1.nextPropId =
      st.nextPropId + (l.filter (fun p => ¬ failAt p.1)).length ∧
    (l.foldl (bulkSaveStep ownerId failAt now) (st, c)).2 =
      c + (l.filter (fun p => ¬ failAt p.1)).length := by
  intro l
  induction l with
  | nil => intro st c; simp [savedProps]
  | cons p rest ih =>
      intro st c
      by_cases hfail : failAt p.1 = true
      · have hstep : bulkSaveStep ownerId failAt now (st, c) p = (st, c) := by
          unfold bulkSaveStep
          rw [hfail]
          simp
        rw [List.foldl_cons, hstep]
        obtain ⟨e1, e2, e3⟩ := ih st c
        refine ⟨?_, ?_, ?_⟩
        · rw [e1, savedProps, if_pos hfail]
        · rw [e2, List.filter_cons]
          simp [hfail]
        · rw [e3, List.filter_cons]
          simp [hfail]
      · have hfail2 : failAt p.1 = false := by
          cases h : failAt p.1
          · rfl
          · exact absurd h hfail
        obtain ⟨s1, s2, s3⟩ := bulkSaveStep_props ownerId failAt now (st, c) p hfail2
        set acc2 := bulkSaveStep ownerId failAt now (st, c) p with hacc
        have hacc2 : acc2 = (acc2.1, acc2.2) := rfl
        rw [List.foldl_cons, ← hacc, hacc2]
        obtain ⟨e1, e2, e3⟩ := ih acc2.1 acc2.2
        refine ⟨?_, ?_, ?_⟩
        · rw [e1, s1, s2, savedProps, if_neg (by simp [hfail2])]
          simp
        · rw [e2, s2, List.filter_cons]
          simp [hfail2]
          omega
        · rw [e3, s3, List.filter_cons]
          simp [hfail2]
          omega

/-- C5 (amended): _ultra_fast_bulk_save isolates per-record failures
    instead of rolling back the batch: the committed property rows are
    exactly the previous rows followed by one new row per record whose
    save did not raise, and the reported count is the number of
    surviving records.  A record that raises is skipped and the rest
    of the batch is still committed. -/
theorem C5_bulk_save_isolation_amended (st : Store) (props : List PropertyData)
    (ownerId : ℕ) (failAt : ℕ → Bool) (now : ℕ) :
    (ultraFastBulkSave st props ownerId failAt now).1.props =
      st.props ++ savedProps ownerId now failAt st.nextPropId props.enum ∧
    (ultraFastBulkSave st props ownerId failAt now).2 =
      (props.enum.filter (fun p => ¬ failAt p.1)).length := by
  obtain ⟨e1, e2, e3⟩ := bulkSave_fold_spec ownerId now failAt props.enum st 0
  exact ⟨e1, by rw [ultraFastBulkSave, e3]; omega⟩

/-- C5 counterexample: a two-record batch in which the second record
    raises during its save still commits the first record: the batch is
    not rolled back (the claim would require the committed store to be
    unchanged). -/
theorem C5_counterexample_partial_commit :
    (processSingleBatch {} [JVal.dict [("id", .str "A")], JVal.dict [("id", .str "B")]]
        true 1 (fun i => i == 1) 0).props.map (fun p => p.fields.external_id) = ["A"] ∧
    (fun i : ℕ => i == 1) 1 = true ∧ (["A"] : List String) ≠ [] := by
  refine ⟨rfl, rfl, by simp⟩

/-- C7 counterexample: a raw listing with no id at all is normalized
    (with external_id the empty string) instead of being rejected,
    while a listing with a usable id but a non-numeric lat string is
    hard-rejected — so nil is neither implied by a missing identifier
    nor restricted to that case. -/
theorem C7_counterexample_rejection_criterion :
    (processProperty (JVal.dict [])).isSome = true ∧
    (processProperty (JVal.dict [])).map (fun pd => pd.fields.external_id) = some "" ∧
    processProperty
      (JVal.dict [("id", .int 5), ("lat", .str "abc"), ("lng", .num 1)]) = none :=
  ⟨rfl, rfl, rfl⟩

/-- C7 (amended): normalization returns nil exactly when a processing
    step raises; a missing or arbitrary external identifier by itself
    never causes rejection.  Any listing whose only field is its id
    (with any value whatsoever, or absent entirely) is normalized, and
    its external_id is str() of the raw id. -/
theorem C7_normalizer_rejection_amended (v : JVal) :
    (processProperty (JVal.dict [("id", v)])).isSome = true ∧
    (processProperty (JVal.dict [("id", v)])).map (fun pd => pd.fields.external_id) =
      some (pyStr v) ∧
    (processProperty (JVal.dict [])).map (fun pd => pd.fields.external_id) = some "" :=
  ⟨rfl, rfl, rfl⟩

/-- Scoring a string candidate address against a stored string address
    never raises and agrees with the pure similarity function. -/
theorem calcAddrSimE_str (a s : String) :
    calcAddrSimE (.str a) s = .ok (calculateAddressSimilarity a s) := by
  unfold calcAddrSimE calculateAddressSimilarity
  by_cases ha : a = ""
  · subst ha
    simp [JVal.truthy]
  · by_cases hs : s = ""
    · subst hs
      simp [JVal.truthy, ha]
    · simp [JVal.truthy, ha, hs]

/-- The address loop over rows whose addresses are strings or falsy is
    a pure filter. -/
theorem addrMatchFold (a : String) (l : List DBProperty) : ∀ (acc : List DBProperty),
    (∀ p ∈ l, (∃ s, p.fields.address = .str s) ∨ (p.fields.address).truthy = false) →
    List.foldlM (addrMatchStep (.str a)) acc l =
      .ok (acc ++ l.filter (fun p =>
        match p.fields.address with
        | .str s => decide (¬ (s = "") ∧ calculateAddressSimilarity a s ≥ 85 / 100)
        | _ => false)) := by
  induction l with
  | nil =>
      intro acc _
      rw [List.foldlM_nil]
      simp [pure, Except.pure]
  | cons p rest ih =>
      intro acc hhyp
      have hp := hhyp p (by simp)
      have hrest : ∀ q ∈ rest,
          (∃ s, q.fields.address = .str s) ∨ (q.fields.address).truthy = false :=
        fun q hq => hhyp q (by simp [hq])
      rw [List.foldlM_cons]
      rcases hp with ⟨s, hs⟩ | hfalse
      · by_cases hone : s = ""
        · have hstep : addrMatchStep (.str a) acc p = .ok acc := by
            unfold addrMatchStep storedAddress
            rw [hs, hone]
            simp [JVal.truthy, pure, Except.pure]
          rw [hstep]
          show List.foldlM (addrMatchStep (.str a)) acc rest = _
          rw [ih acc hrest, List.filter_cons]
          simp [hs, hone]
        · have hstep : addrMatchStep (.str a) acc p =
              (if calculateAddressSimilarity a s ≥ 85 / 100 then .ok (acc ++ [p])
               else .ok acc) := by
            unfold addrMatchStep storedAddress
            rw [hs]
            simp only [JVal.truthy, calcAddrSimE_str]
            split
            · rfl
            · simp_all
          rw [hstep]
          by_cases hsim : calculateAddressSimilarity a s ≥ 85 / 100
          · rw [if_pos hsim]
            show List.foldlM (addrMatchStep (.str a)) (acc ++ [p]) rest = _
            rw [ih (acc ++ [p]) hrest, List.filter_cons]
            simp [hs, hone, hsim]
          · rw [if_neg hsim]
            show List.foldlM (addrMatchStep (.str a)) acc rest = _
            rw [ih acc hrest, List.filter_cons]
            simp [hs, hone, hsim]
      · have hstep : addrMatchStep (.str a) acc p = .ok acc := by
          unfold addrMatchStep storedAddress
          rw [if_neg (by simp [hfalse])]
          rfl
        rw [hstep]
        show List.foldlM (addrMatchStep (.str a)) acc rest = _
        rw [ih acc hrest, List.filter_cons]
        cases haddr2 : p.fields.address <;> simp_all [JVal.truthy]

/-- Over a session whose stored addresses are strings or falsy, the
    address tier query is the pure filter addrTierOf. -/
theorem findAddressMatches_pure (db : DedupDB) (a : String) (exclude : List DBProperty)
    (hfail : db.fail = false)
    (haddr : ∀ p ∈ db.props,
      (∃ s, p.fields.address = .str s) ∨ (p.fields.address).truthy = false) :
    findAddressMatches db (.str a) exclude = .ok (addrTierOf db a exclude) := by
  have hb1 : ∀ p ∈ db.props.filter (fun p => p.fields.source == "myhome.ge"),
      (∃ s, p.fields.address = .str s) ∨ (p.fields.address).truthy = false :=
    fun p hp => haddr p (List.mem_of_mem_filter hp)
  have hb2 : ∀ p ∈ (db.props.filter (fun p => p.fields.source == "myhome.ge")).filter
        (fun p => ¬ (p.id ∈ exclude.map (fun q => q.id))),
      (∃ s, p.fields.address = .str s) ∨ (p.fields.address).truthy = false :=
    fun p hp => hb1 p (List.mem_of_mem_filter hp)
  unfold findAddressMatches addrTierOf
  rw [hfail]
  simp only [Bool.false_eq_true, if_false]
  by_cases hex : (exclude.map (fun q => q.id)).isEmpty
  · simp only [hex, if_true]
    rw [addrMatchFold a (db.props.filter (fun p => p.fields.source == "myhome.ge")) [] hb1]
    rfl
  · simp only [hex, if_false, Bool.false_eq_true]
    rw [addrMatchFold a ((db.props.filter (fun p => p.fields.source == "myhome.ge")).filter
      (fun p => ¬ (p.id ∈ exclude.map (fun q => q.id)))) [] hb2]
    rfl

/-- Binding a successful Except value applies the continuation. -/
theorem exBindOk {α β : Type} (a : α) (f : α → Except PyErr β) :
    (Except.ok a >>= f) = f a := rfl

/-- The body of find_duplicates, decomposed into its tiers: the exact
    match short-circuits; otherwise the geo tier result and the
    address tier result (computed with the geo matches excluded but
    still computed) are concatenated. -/
theorem findDuplicatesBody_decomp (db : DedupDB) (pd : PropertyData)
    (hfail : db.fail = false)
    (haddr : ∀ p ∈ db.props,
      (∃ s, p.fields.address = .str s) ∨ (p.fields.address).truthy = false)
    (hcand : (∃ a, pd.fields.address = .str a) ∨ pd.fields.address.truthy = false) :
    findDuplicatesBody db pd =
      .ok (match db.props.find? (fun p =>
            p.fields.external_id == pd.fields.external_id ∧
            p.fields.source == "myhome.ge") with
        | some p => [p]
        | none =>
            geoTierOf db pd ++
              (match pd.fields.address with
               | .str a => if a = "" then [] else addrTierOf db a (geoTierOf db pd)
               | _ => [])) := by
  have hexact : findExactMatch db pd.fields.external_id =
      .ok (db.props.find? (fun p =>
        p.fields.external_id == pd.fields.external_id ∧
        p.fields.source == "myhome.ge")) := by
    simp [findExactMatch, hfail]
  have hgeo : (match pd.fields.latitude, pd.fields.longitude with
      | some lat, some lng =>
          if (lat ≠ PyFloat.finite 0) ∧ (lng ≠ PyFloat.finite 0) then
            findCoordinateMatches db lat lng
          else pure []
      | _, _ => pure []) = .ok (geoTierOf db pd) := by
    unfold geoTierOf
    cases pd.fields.latitude with
    | none => cases pd.fields.longitude <;> rfl
    | some lat =>
        cases pd.fields.longitude with
        | none => rfl
        | some lng =>
            show (if (lat ≠ PyFloat.finite 0) ∧ (lng ≠ PyFloat.finite 0) then
                findCoordinateMatches db lat lng
              else pure []) =
              Except.ok (if (lat ≠ PyFloat.finite 0) ∧ (lng ≠ PyFloat.finite 0) then
                db.props.filter (fun p =>
                  ¬ (p.fields.latitude = none) ∧ ¬ (p.fields.longitude = none) ∧
                  coordClose p.fields.latitude lat ∧
                  coordClose p.fields.longitude lng ∧
                  p.fields.source == "myhome.ge")
              else [])
            by_cases hz : (lat ≠ PyFloat.finite 0) ∧ (lng ≠ PyFloat.finite 0)
            · rw [if_pos hz, if_pos hz]
              simp [findCoordinateMatches, hfail]
            · rw [if_neg hz, if_neg hz]
              rfl
  unfold findDuplicatesBody
  rw [hexact]
  cases hfind : db.props.find? (fun p =>
      p.fields.external_id == pd.fields.external_id ∧
      p.fields.source == "myhome.ge") with
  | some p => rfl
  | none =>
      rw [exBindOk]
      show ((match pd.fields.latitude, pd.fields.longitude with
        | some lat, some lng =>
            if (lat ≠ PyFloat.finite 0) ∧ (lng ≠ PyFloat.finite 0) then
              findCoordinateMatches db lat lng
            else pure []
        | _, _ => pure []) >>= fun coordMatches =>
          (if pd.fields.address.truthy then
              findAddressMatches db pd.fields.address ([] ++ coordMatches)
            else pure []) >>= fun addrMatches =>
            pure (([] ++ coordMatches) ++ addrMatches)) = _
      rw [hgeo, exBindOk]
      rcases hcand with ⟨a, ha⟩ | hfalse
      · rw [ha]
        by_cases hone : a = ""
        · subst hone
          rw [if_neg (by simp [JVal.truthy])]
          rfl
        · rw [if_pos (by simp [JVal.truthy, hone])]
          rw [findAddressMatches_pure db a ([] ++ geoTierOf db pd) hfail haddr, exBindOk]
          show Except.ok ((([] : List DBProperty) ++ geoTierOf db pd) ++
            addrTierOf db a ([] ++ geoTierOf db pd)) = _
          simp [hone]
      · rw [if_neg (by simp [hfalse])]
        cases haddr2 : pd.fields.address <;> simp_all [JVal.truthy] <;> rfl

/-- Identical addresses score ratio 1, above the 0.85 threshold. -/
theorem c2_sim_self :
    calculateAddressSimilarity "kostava st 12" "kostava st 12" ≥ 85 / 100 := by
  have htm : totalMatches ("kostava st 12").data ("kostava st 12").data = 13 := rfl
  have h26 : (("kostava st 12").data.length + ("kostava st 12").data.length : ℕ) = 26 := rfl
  show (if (("kostava st 12").data.length + ("kostava st 12").data.length) = 0 then (1 : ℚ)
    else 2 * (totalMatches ("kostava st 12").data ("kostava st 12").data : ℚ) /
      ((("kostava st 12").data.length + ("kostava st 12").data.length : ℕ) : ℚ)) ≥ 85 / 100
  rw [if_neg (by decide), htm, h26]
  norm_num

/-- In the tiering scenario the coordinate tier finds the first row. -/
theorem c2_geoTier : geoTierOf c2Db c2Cand = [c2GeoRow] := by
  have hc1 : coordClose (some (.finite 41)) (.finite 41) = true := by
    show decide (|(41 : ℚ) - 41| < 1 / 10000) = true
    rw [decide_eq_true_eq]
    norm_num
  have hc2 : coordClose (some (.finite 44)) (.finite 44) = true := by
    show decide (|(44 : ℚ) - 44| < 1 / 10000) = true
    rw [decide_eq_true_eq]
    norm_num
  norm_num [geoTierOf, c2Db, c2Cand, c2GeoRow, c2AddrRow, List.filter, hc1, hc2]
  rfl

/-- In the tiering scenario the address tier, run with the coordinate
    match excluded, still finds the second row. -/
theorem c2_addrTier : addrTierOf c2Db "kostava st 12" [c2GeoRow] = [c2AddrRow] := by
  have hsim : (17 : ℚ) / 20 ≤ calculateAddressSimilarity "kostava st 12" "kostava st 12" := by
    have h := c2_sim_self
    linarith
  norm_num [addrTierOf, c2Db, c2GeoRow, c2AddrRow, List.filter, hsim]
  rfl

/-- C2: refuted as stated.  In a session holding a coordinate match
    (row 1) and an address match (row 2) for the same candidate, the
    coordinate tier returns a match, yet find_duplicates still
    evaluates the address-similarity tier and returns both rows: the
    address tier is not skipped when the geo tier finds something. -/
theorem C2_counterexample_geo_then_address :
    geoTierOf c2Db c2Cand = [c2GeoRow] ∧
    findDuplicates c2Db c2Cand = [c2GeoRow, c2AddrRow] := by
  refine ⟨c2_geoTier, ?_⟩
  have haddr : ∀ p ∈ c2Db.props,
      (∃ s, p.fields.address = .str s) ∨ (p.fields.address).truthy = false := by
    intro p hp
    have hp2 : p = c2GeoRow ∨ p = c2AddrRow := by simpa [c2Db] using hp
    rcases hp2 with rfl | rfl
    · exact Or.inl ⟨"peikrebi 9", rfl⟩
    · exact Or.inl ⟨"kostava st 12", rfl⟩
  unfold findDuplicates
  rw [findDuplicatesBody_decomp c2Db c2Cand rfl haddr
    (Or.inl ⟨"kostava st 12", rfl⟩)]
  have hfind : c2Db.props.find? (fun p =>
      p.fields.external_id == c2Cand.fields.external_id ∧
      p.fields.source == "myhome.ge") = none := rfl
  rw [hfind]
  show geoTierOf c2Db c2Cand ++
    (if ("kostava st 12" : String) = "" then []
     else addrTierOf c2Db "kostava st 12" (geoTierOf c2Db c2Cand)) =
    [c2GeoRow, c2AddrRow]
  rw [if_neg (by decide), c2_geoTier, c2_addrTier]
  rfl

/-- C2 (amended): only the exact (external_id, source) tier
    short-circuits duplicate matching.  When it finds nothing, the
    coordinate tier and the address-similarity tier BOTH run: the
    address tier is evaluated even when the coordinate tier matched,
    merely excluding the rows the coordinate tier already found, and
    find_duplicates returns the concatenation of the two tiers. -/
theorem C2_tiering_amended (db : DedupDB) (pd : PropertyData)
    (hfail : db.fail = false)
    (haddr : ∀ p ∈ db.props,
      (∃ s, p.fields.address = .str s) ∨ (p.fields.address).truthy = false)
    (hcand : (∃ a, pd.fields.address = .str a) ∨ pd.fields.address.truthy = false) :
    findDuplicates db pd =
      (match db.props.find? (fun p =>
            p.fields.external_id == pd.fields.external_id ∧
            p.fields.source == "myhome.ge") with
        | some p => [p]
        | none =>
            geoTierOf db pd ++
              (match pd.fields.address with
               | .str a => if a = "" then [] else addrTierOf db a (geoTierOf db pd)
               | _ => [])) := by
  unfold findDuplicates
  rw [findDuplicatesBody_decomp db pd hfail haddr hcand]

/-- Witness for the amended tiering law: on a concrete session with an
    exact external_id hit, find_duplicates returns that row alone. -/
theorem C2_tiering_amended_witness :
    findDuplicates c2wDb c2wCand = [c2wRow] := by
  rw [C2_tiering_amended c2wDb c2wCand rfl
    (by intro p hp
        have hp2 : p = c2wRow := by simpa [c2wDb] using hp
        subst hp2
        exact Or.inl ⟨"abc", rfl⟩)
    (Or.inl ⟨"", rfl⟩)]
  rfl

/-- Every image row minted for a property carries that property id and
    a primary key at or above the starting counter value. -/
theorem mkImageRows_mem (pid : ℕ) : ∀ (imgs : List PImage) (s : ℕ),
    ∀ r ∈ mkImageRows s pid imgs, r.property_id = pid ∧ s ≤ r.id := by
  intro imgs
  induction imgs with
  | nil => intro s r hr; cases hr
  | cons img rest ih =>
      intro s r hr
      simp only [mkImageRows, List.mem_cons] at hr
      rcases hr with rfl | hr
      · exact ⟨rfl, le_refl s⟩
      · obtain ⟨h1, h2⟩ := ih (s + 1) r hr
        exact ⟨h1, le_trans (Nat.le_succ s) h2⟩

/-- The payloads of the minted image rows are exactly the incoming
    images, in order. -/
theorem mkImageRows_payload (pid : ℕ) : ∀ (imgs : List PImage) (s : ℕ),
    (mkImageRows s pid imgs).map
        (fun r => (r.image_url, r.caption, r.is_primary, r.order_index)) =
      imgs.map (fun i => (i.url, i.caption, i.is_primary, i.order_index)) := by
  intro imgs
  induction imgs with
  | nil => intro s; rfl
  | cons img rest ih => intro s; simp [mkImageRows, ih (s + 1)]

/-- Every price row minted for a property carries that property id and
    a primary key at or above the starting counter value. -/
theorem mkPriceRows_mem (pid : ℕ) : ∀ (prs : List PPrice) (s : ℕ),
    ∀ r ∈ mkPriceRows s pid prs, r.property_id = pid ∧ s ≤ r.id := by
  intro prs
  induction prs with
  | nil => intro s r hr; cases hr
  | cons pr rest ih =>
      intro s r hr
      simp only [mkPriceRows, List.mem_cons] at hr
      rcases hr with rfl | hr
      · exact ⟨rfl, le_refl s⟩
      · obtain ⟨h1, h2⟩ := ih (s + 1) r hr
        exact ⟨h1, le_trans (Nat.le_succ s) h2⟩

/-- The payloads of the minted price rows are exactly the incoming
    price tuples, in order. -/
theorem mkPriceRows_payload (pid : ℕ) : ∀ (prs : List PPrice) (s : ℕ),
    (mkPriceRows s pid prs).map
        (fun r => (r.currency_type, r.price_total, r.price_square)) =
      prs.map (fun p => (p.currency_type, p.price_total, p.price_square)) := by
  intro prs
  induction prs with
  | nil => intro s; rfl
  | cons pr rest ih => intro s; simp [mkPriceRows, ih (s + 1)]

/-- update_property decomposed: scalar overwrite and purge of the
    dependent rows of this property, then the three insert passes. -/
theorem updateProperty_decomp (st : Store) (pid : ℕ) (pd : PropertyData) (now : ℕ) :
    updateProperty st pid pd now =
      savePropertyPrices
        (savePropertyParameters
          (savePropertyImages
            { st with
              props := st.props.map (fun p =>
                if p.id = pid then
                  { p with fields := { pd.toDict now with
                      updated_at := some (.wall now)
                      last_scraped := some (.wall now) } }
                else p)
              images := st.images.filter (fun r => r.property_id ≠ pid)
              prices := st.prices.filter (fun r => r.property_id ≠ pid)
              paramLinks := st.paramLinks.filter (fun r => r.property_id ≠ pid) }
            pid pd.images)
          pid pd.parameters)
        pid pd.prices := rfl

/-- The related tables after update_property: each collection is the
    old table purged of this property's rows, followed by exactly the
    incoming collection's rows under fresh primary keys. -/
theorem updateProperty_tables (st : Store) (pid : ℕ) (pd : PropertyData) (now : ℕ) :
    ∃ linkRows,
    (updateProperty st pid pd now).images =
      st.images.filter (fun r => r.property_id ≠ pid) ++
        mkImageRows st.nextImageId pid pd.images ∧
    (updateProperty st pid pd now).prices =
      st.prices.filter (fun r => r.property_id ≠ pid) ++
        mkPriceRows st.nextPriceId pid pd.prices ∧
    (updateProperty st pid pd now).paramLinks =
      st.paramLinks.filter (fun r => r.property_id ≠ pid) ++ linkRows ∧
    linkRows.map (fun r => (r.parameter_value, r.parameter_select_name)) =
      pd.parameters.map (fun p => (p.parameter_value, p.parameter_select_name)) ∧
    (∀ r ∈ linkRows, r.property_id = pid ∧ st.nextLinkId ≤ r.id) := by
  obtain ⟨stA, hAim, hApr, hAlk, hAnii, hAnpi, hAnli, hEq⟩ :
      ∃ stA : Store,
        stA.images = st.images.filter (fun r => r.property_id ≠ pid) ∧
        stA.prices = st.prices.filter (fun r => r.property_id ≠ pid) ∧
        stA.paramLinks = st.paramLinks.filter (fun r => r.property_id ≠ pid) ∧
        stA.nextImageId = st.nextImageId ∧
        stA.nextPriceId = st.nextPriceId ∧
        stA.nextLinkId = st.nextLinkId ∧
        updateProperty st pid pd now =
          savePropertyPrices
            (savePropertyParameters (savePropertyImages stA pid pd.images)
              pid pd.parameters) pid pd.prices :=
    ⟨{ st with
        props := st.props.map (fun p =>
          if p.id = pid then
            { p with fields := { pd.toDict now with
                updated_at := some (.wall now)
                last_scraped := some (.wall now) } }
          else p)
        images := st.images.filter (fun r => r.property_id ≠ pid)
        prices := st.prices.filter (fun r => r.property_id ≠ pid)
        paramLinks := st.paramLinks.filter (fun r => r.property_id ≠ pid) },
      rfl, rfl, rfl, rfl, rfl, rfl, updateProperty_decomp st pid pd now⟩
  obtain ⟨hIimages, hInii, hIprops, hIprices, hIlinks, hIparams, hInpro,
    hInpi, hInli, hInpa⟩ := saveImages_spec pd.images stA pid
  obtain ⟨L, hLlinks, hLmap, hLmem, hPprops, hPimages, hPprices, hPnpro,
    hPnii, hPnpi, hPnli⟩ :=
    saveParams_spec pd.parameters (savePropertyImages stA pid pd.images) pid
  obtain ⟨hRprices, hRnpi, hRprops, hRimages, hRlinks, hRparams, hRnpro,
    hRnii, hRnli, hRnpa⟩ :=
    savePrices_spec pd.prices
      (savePropertyParameters (savePropertyImages stA pid pd.images) pid pd.parameters) pid
  refine ⟨L, ?_, ?_, ?_, hLmap, ?_⟩
  · rw [hEq, hRimages, hPimages, hIimages, hAim, hAnii]
  · rw [hEq, hRprices, hPprices, hIprices, hApr, hPnpi, hInpi, hAnpi]
  · rw [hEq, hRlinks, hLlinks, hIlinks, hAlk]
  · intro r hr
    obtain ⟨h1, h2⟩ := hLmem r hr
    rw [hInli, hAnli] at h2
    exact ⟨h1, h2⟩

/-- C9: on update of an existing record, the stored images, price
    tuples and parameter links of that record are fully replaced by
    the incoming record's collections: after update_property the rows
    stored for the property carry exactly the incoming payloads, in
    order, and none of the property's previous rows survives. -/
theorem C9_full_replacement (st : Store) (pid : ℕ) (pd : PropertyData) (now : ℕ)
    (himg : ∀ r ∈ st.images, r.id < st.nextImageId)
    (hpr : ∀ r ∈ st.prices, r.id < st.nextPriceId)
    (hlk : ∀ r ∈ st.paramLinks, r.id < st.nextLinkId) :
    (((updateProperty st pid pd now).images.filter (fun r => r.property_id = pid)).map
        (fun r => (r.image_url, r.caption, r.is_primary, r.order_index)) =
      pd.images.map (fun i => (i.url, i.caption, i.is_primary, i.order_index))) ∧
    (((updateProperty st pid pd now).prices.filter (fun r => r.property_id = pid)).map
        (fun r => (r.currency_type, r.price_total, r.price_square)) =
      pd.prices.map (fun p => (p.currency_type, p.price_total, p.price_square))) ∧
    (((updateProperty st pid pd now).paramLinks.filter (fun r => r.property_id = pid)).map
        (fun r => (r.parameter_value, r.parameter_select_name)) =
      pd.parameters.map (fun p => (p.parameter_value, p.parameter_select_name))) ∧
    (∀ r ∈ (updateProperty st pid pd now).images, r.property_id = pid → r ∉ st.images) ∧
    (∀ r ∈ (updateProperty st pid pd now).prices, r.property_id = pid → r ∉ st.prices) ∧
    (∀ r ∈ (updateProperty st pid pd now).paramLinks, r.property_id = pid → r ∉ st.paramLinks) := by
  obtain ⟨L, hIm, hPr, hLk, hLmap, hLmem⟩ := updateProperty_tables st pid pd now
  have hgone : ∀ {β : Type} (l : List β) (f : β → ℕ),
      (l.filter (fun r => f r ≠ pid)).filter (fun r => f r = pid) = [] := by
    intro β l f
    rw [List.filter_eq_nil_iff]
    intro r hr
    have h := (List.mem_filter.mp hr).2
    simp at h ⊢
    exact h
  refine ⟨?_, ?_, ?_, ?_, ?_, ?_⟩
  · rw [hIm, List.filter_append]
    rw [show (st.images.filter (fun r => r.property_id ≠ pid)).filter
        (fun r => r.property_id = pid) = [] from hgone st.images (fun r => r.property_id)]
    rw [List.nil_append]
    rw [List.filter_eq_self.mpr (fun r hr => by
      simp [(mkImageRows_mem pid pd.images st.nextImageId r hr).1])]
    exact mkImageRows_payload pid pd.images st.nextImageId
  · rw [hPr, List.filter_append]
    rw [show (st.prices.filter (fun r => r.property_id ≠ pid)).filter
        (fun r => r.property_id = pid) = [] from hgone st.prices (fun r => r.property_id)]
    rw [List.nil_append]
    rw [List.filter_eq_self.mpr (fun r hr => by
      simp [(mkPriceRows_mem pid pd.prices st.nextPriceId r hr).1])]
    exact mkPriceRows_payload pid pd.prices st.nextPriceId
  · rw [hLk, List.filter_append]
    rw [show (st.paramLinks.filter (fun r => r.property_id ≠ pid)).filter
        (fun r => r.property_id = pid) = [] from hgone st.paramLinks (fun r => r.property_id)]
    rw [List.nil_append]
    rw [List.filter_eq_self.mpr (fun r hr => by simp [(hLmem r hr).1])]
    exact hLmap
  · intro r hr hpidr hmem
    rw [hIm] at hr
    rcases List.mem_append.mp hr with hr | hr
    · have h := (List.mem_filter.mp hr).2
      simp [hpidr] at h
    · have h2 := (mkImageRows_mem pid pd.images st.nextImageId r hr).2
      have h3 := himg r hmem
      omega
  · intro r hr hpidr hmem
    rw [hPr] at hr
    rcases List.mem_append.mp hr with hr | hr
    · have h := (List.mem_filter.mp hr).2
      simp [hpidr] at h
    · have h2 := (mkPriceRows_mem pid pd.prices st.nextPriceId r hr).2
      have h3 := hpr r hmem
      omega
  · intro r hr hpidr hmem
    rw [hLk] at hr
    rcases List.mem_append.mp hr with hr | hr
    · have h := (List.mem_filter.mp hr).2
      simp [hpidr] at h
    · have h2 := (hLmem r hr).2
      have h3 := hlk r hmem
      omega

/-- Witness for the full-replacement law on a concrete one-row store:
    the counters dominate the stored ids, and updating replaces the
    old image, price and parameter-link rows with the incoming ones. -/
theorem C9_full_replacement_witness :
    ((∀ r ∈ c9St.images, r.id < c9St.nextImageId) ∧
     (∀ r ∈ c9St.prices, r.id < c9St.nextPriceId) ∧
     (∀ r ∈ c9St.paramLinks, r.id < c9St.nextLinkId)) ∧
    ((((updateProperty c9St 1 c9New 5).images.filter (fun r => r.property_id = 1)).map
        (fun r => (r.image_url, r.caption, r.is_primary, r.order_index)) =
      c9New.images.map (fun i => (i.url, i.caption, i.is_primary, i.order_index))) ∧
    (((updateProperty c9St 1 c9New 5).prices.filter (fun r => r.property_id = 1)).map
        (fun r => (r.currency_type, r.price_total, r.price_square)) =
      c9New.prices.map (fun p => (p.currency_type, p.price_total, p.price_square))) ∧
    (((updateProperty c9St 1 c9New 5).paramLinks.filter (fun r => r.property_id = 1)).map
        (fun r => (r.parameter_value, r.parameter_select_name)) =
      c9New.parameters.map (fun p => (p.parameter_value, p.parameter_select_name))) ∧
    (∀ r ∈ (updateProperty c9St 1 c9New 5).images, r.property_id = 1 → r ∉ c9St.images) ∧
    (∀ r ∈ (updateProperty c9St 1 c9New 5).prices, r.property_id = 1 → r ∉ c9St.prices) ∧
    (∀ r ∈ (updateProperty c9St 1 c9New 5).paramLinks, r.property_id = 1 → r ∉ c9St.paramLinks)) :=
  ⟨⟨by decide, by decide, by decide⟩,
    C9_full_replacement c9St 1 c9New 5 (by decide) (by decide) (by decide)⟩

/-- Characterisation of a successful Except bind. -/
theorem exBind_ok_iff {α β : Type} (x : Except PyErr α) (f : α → Except PyErr β) (b : β) :
    (x >>= f) = .ok b ↔ ∃ a, x = .ok a ∧ f a = .ok b := by
  cases x with
  | error e => simp [Bind.bind, Except.bind]
  | ok a => simp [Bind.bind, Except.bind]

/-- Characterisation of a successful pure. -/
theorem exPure_ok_iff {α : Type} (a b : α) :
    (pure a : Except PyErr α) = .ok b ↔ a = b := by
  simp only [pure, Except.pure, Except.ok.injEq]

/-- The normalizer stamps external_id in _process_basic_info. -/
theorem processBasicInfo_extid (raw : JVal) :
    (processBasicInfo raw).external_id = pyStr (raw.get "id" (.str "")) := rfl

/-- Updating scalar fields in _process_location leaves external_id
    untouched. -/
theorem processLocation_extid (raw : JVal) (f g : PropertyFields)
    (h : processLocation raw f = .ok g) : g.external_id = f.external_id := by
  simp only [processLocation] at h
  split at h
  · rw [exPure_ok_iff] at h
    subst h
    split <;> first | rfl | (split <;> rfl)
  · rw [exPure_ok_iff] at h
    subst h
    split <;> first | rfl | (split <;> rfl)
  · rw [exBind_ok_iff] at h
    obtain ⟨la, _, h⟩ := h
    rw [exBind_ok_iff] at h
    obtain ⟨ln, _, h⟩ := h
    rw [exPure_ok_iff] at h
    subst h
    split <;> first | rfl | (split <;> rfl)

set_option maxHeartbeats 1000000 in
/-- Updating type, room and size fields in _process_property_details
    leaves external_id untouched. -/
theorem processPropertyDetails_extid (raw : JVal) (f g : PropertyFields)
    (h : processPropertyDetails raw f = .ok g) : g.external_id = f.external_id := by
  simp only [processPropertyDetails] at h
  rw [exBind_ok_iff] at h
  obtain ⟨sq, _, h⟩ := h
  rw [exBind_ok_iff] at h
  obtain ⟨ls, _, h⟩ := h
  split at h <;> rw [exPure_ok_iff] at h <;> subst h <;> rfl

set_option maxHeartbeats 1000000 in
/-- Updating building fields in _process_building_details leaves
    external_id untouched. -/
theorem processBuildingDetails_extid (raw : JVal) (f g : PropertyFields)
    (h : processBuildingDetails raw f = .ok g) : g.external_id = f.external_id := by
  simp only [processBuildingDetails] at h
  rw [exBind_ok_iff] at h
  obtain ⟨a1, _, h⟩ := h
  rw [exBind_ok_iff] at h
  obtain ⟨a2, _, h⟩ := h
  rw [exBind_ok_iff] at h
  obtain ⟨a3, _, h⟩ := h
  rw [exBind_ok_iff] at h
  obtain ⟨a4, _, h⟩ := h
  repeat' split at h
  all_goals rw [exPure_ok_iff] at h
  all_goals subst h
  all_goals rfl

/-- A monadic fold over steps that preserve external_id preserves
    external_id. -/
theorem foldlM_extid (step : PropertyFields → JVal → Except PyErr PropertyFields)
    (hstep : ∀ f p g, step f p = .ok g → g.external_id = f.external_id) :
    ∀ (xs : List JVal) (f g : PropertyFields),
      xs.foldlM step f = .ok g → g.external_id = f.external_id := by
  intro xs
  induction xs with
  | nil =>
      intro f g h
      rw [List.foldlM_nil, exPure_ok_iff] at h
      subst h
      rfl
  | cons x rest ih =>
      intro f g h
      rw [List.foldlM_cons, exBind_ok_iff] at h
      obtain ⟨f1, h1, h⟩ := h
      rw [ih f1 g h, hstep f x f1 h1]

/-- One step of the feature scan leaves external_id untouched. -/
theorem featuresStep_extid (f : PropertyFields) (p : JVal) (g : PropertyFields)
    (h : featuresStep f p = .ok g) : g.external_id = f.external_id := by
  simp only [featuresStep] at h
  split at h
  · rw [exBind_ok_iff] at h
    obtain ⟨key, _, h⟩ := h
    rw [exBind_ok_iff] at h
    obtain ⟨dn, _, h⟩ := h
    rw [exPure_ok_iff] at h
    subst h
    split <;> split <;> rfl
  · rw [exPure_ok_iff] at h
    subst h
    rfl

/-- The feature scan of _process_features leaves external_id
    untouched. -/
theorem processFeatures_extid (raw : JVal) (f : PropertyFields)
    (t : PropertyFields × List JVal × List PParam)
    (h : processFeatures raw f = .ok t) : t.1.external_id = f.external_id := by
  simp only [processFeatures] at h
  split at h
  · rw [exBind_ok_iff] at h
    obtain ⟨f1, h1, h⟩ := h
    rw [exPure_ok_iff] at h
    subst h
    show f1.external_id = f.external_id
    have h2 := foldlM_extid featuresStep featuresStep_extid _ _ _ h1
    exact h2
  · rw [exBind_ok_iff] at h
    obtain ⟨f1, h1, h⟩ := h
    rw [exPure_ok_iff] at h1
    rw [exPure_ok_iff] at h
    subst h1
    subst h
    rfl

/-- Updating the rent amounts in _process_basic_financial leaves
    external_id untouched. -/
theorem processBasicFinancial_extid (raw : JVal) (f : PropertyFields)
    (gp : PropertyFields × List PPrice)
    (h : processBasicFinancial raw f = .ok gp) : gp.1.external_id = f.external_id := by
  simp only [processBasicFinancial] at h
  rw [exBind_ok_iff] at h
  obtain ⟨f1, h1, h⟩ := h
  rw [exBind_ok_iff] at h
  obtain ⟨prices, _, h⟩ := h
  rw [exPure_ok_iff] at h
  subst h
  show f1.external_id = f.external_id
  split at h1
  · rw [exBind_ok_iff] at h1
    obtain ⟨f2, hg, h1⟩ := h1
    rw [exBind_ok_iff] at h1
    obtain ⟨f3, hu, h1⟩ := h1
    have hf2 : f2.external_id = f.external_id := by
      split at hg
      · split at hg
        · rw [exBind_ok_iff] at hg
          obtain ⟨pos, _, hg⟩ := hg
          split at hg <;> rw [exPure_ok_iff] at hg <;> subst hg <;> rfl
        · rw [exPure_ok_iff] at hg
          subst hg
          rfl
      · rw [exPure_ok_iff] at hg
        subst hg
        rfl
    have hf3 : f3.external_id = f2.external_id := by
      split at hu
      · split at hu
        · rw [exBind_ok_iff] at hu
          obtain ⟨pos, _, hu⟩ := hu
          split at hu <;> rw [exPure_ok_iff] at hu <;> subst hu <;> rfl
        · rw [exPure_ok_iff] at hu
          subst hu
          rfl
      · rw [exPure_ok_iff] at hu
        subst hu
        rfl
    have hf1 : f1.external_id = f3.external_id := by
      split at h1
      · split at h1
        · split at h1
          · split at h1
            · split at h1
              · rw [exBind_ok_iff] at h1
                obtain ⟨pos, _, h1⟩ := h1
                split at h1 <;> rw [exPure_ok_iff] at h1 <;> subst h1 <;> rfl
              · rw [exPure_ok_iff] at h1
                subst h1
                rfl
            · rw [exPure_ok_iff] at h1
              subst h1
              rfl
          · rw [exPure_ok_iff] at h1
            subst h1
            rfl
        · rw [exPure_ok_iff] at h1
          subst h1
          rfl
      · rw [exPure_ok_iff] at h1
        subst h1
        rfl
    rw [hf1, hf3, hf2]
  · rw [exPure_ok_iff] at h1
    subst h1
    rfl

/-- A normalized record carries external_id = str(raw.get('id', '')):
    no later pipeline step modifies what _process_basic_info stamped. -/
theorem processPropertyE_extid (raw : JVal) (pd : PropertyData)
    (h : processPropertyE raw = .ok pd) :
    pd.fields.external_id = pyStr (raw.get "id" (.str "")) := by
  simp only [processPropertyE] at h
  rw [exBind_ok_iff] at h
  obtain ⟨f1, h1, h⟩ := h
  rw [exBind_ok_iff] at h
  obtain ⟨f2, h2, h⟩ := h
  rw [exBind_ok_iff] at h
  obtain ⟨fp, h3, h⟩ := h
  rw [exBind_ok_iff] at h
  obtain ⟨ffp, h4, h⟩ := h
  rw [exBind_ok_iff] at h
  obtain ⟨f5, h5, h⟩ := h
  rw [exBind_ok_iff] at h
  obtain ⟨images, _, h⟩ := h
  rw [exBind_ok_iff] at h
  obtain ⟨userType, _, h⟩ := h
  rw [exPure_ok_iff] at h
  subst h
  show f5.external_id = pyStr (raw.get "id" (.str ""))
  rw [processBuildingDetails_extid raw ffp.1 f5 h5,
    processFeatures_extid raw fp.1 ffp h4,
    processBasicFinancial_extid raw f2 fp h3,
    processPropertyDetails_extid raw f1 f2 h2,
    processLocation_extid raw (processBasicInfo raw) f1 h1,
    processBasicInfo_extid raw]

/-- to_dict keeps external_id. -/
theorem toDict_extid (pd : PropertyData) (now : ℕ) :
    (pd.toDict now).external_id = pd.fields.external_id := rfl

/-- The record loop of _process_single_batch never changes the store:
    the delete-and-replace branch is dead because
    _is_owner_listing_from_db is constantly true. -/
theorem batchStep_store (eop : Bool) (lookup : String → Option DBProperty)
    (s : Store) (v : List PropertyData) (raw : JVal) :
    batchStep eop lookup (s, v) raw = (s, (batchStep eop lookup (s, v) raw).2) := by
  cases hpp : processProperty raw with
  | none => simp [batchStep, hpp]
  | some pd =>
      cases hlk : lookup pd.fields.external_id with
      | some existing => simp [batchStep, hpp, hlk, isOwnerListingFromDb]
      | none => simp [batchStep, hpp, hlk]

/-- The record loop leaves the store untouched across a whole batch. -/
theorem batch_fold_store (eop : Bool) (lookup : String → Option DBProperty) :
    ∀ (l : List JVal) (s : Store) (v : List PropertyData),
    (l.foldl (batchStep eop lookup) (s, v)).1 = s := by
  intro l
  induction l with
  | nil => intro s v; rfl
  | cons raw rest ih =>
      intro s v
      rw [List.foldl_cons, batchStep_store eop lookup s v raw]
      exact ih s _

/-- One record-loop step only ever appends to the valid list. -/
theorem batchStep_valid_mono (eop : Bool) (lookup : String → Option DBProperty)
    (s : Store) (v : List PropertyData) (raw : JVal) (x : PropertyData) (hx : x ∈ v) :
    x ∈ (batchStep eop lookup (s, v) raw).2 := by
  cases hpp : processProperty raw with
  | none => simpa [batchStep, hpp] using hx
  | some pd =>
      cases hlk : lookup pd.fields.external_id with
      | some existing => simp [batchStep, hpp, hlk, isOwnerListingFromDb, hx]
      | none => simp [batchStep, hpp, hlk, hx]

/-- The record loop only ever appends to the valid list. -/
theorem batch_fold_valid_mono (eop : Bool) (lookup : String → Option DBProperty) :
    ∀ (l : List JVal) (s : Store) (v : List PropertyData) (x : PropertyData), x ∈ v →
    x ∈ (l.foldl (batchStep eop lookup) (s, v)).2 := by
  intro l
  induction l with
  | nil => intro s v x hx; exact hx
  | cons raw rest ih =>
      intro s v x hx
      rw [List.foldl_cons, batchStep_store eop lookup s v raw]
      exact ih s _ x (batchStep_valid_mono eop lookup s v raw x hx)

/-- A processable record whose external id misses the bulk existence
    dict ends up in the valid list of the record loop. -/
theorem batch_fold_captures (eop : Bool) (lookup : String → Option DBProperty) :
    ∀ (l : List JVal) (s : Store) (v : List PropertyData) (raw : JVal) (pd : PropertyData),
    raw ∈ l → processProperty raw = some pd → lookup pd.fields.external_id = none →
    pd ∈ (l.foldl (batchStep eop lookup) (s, v)).2 := by
  intro l
  induction l with
  | nil => intro s v raw pd h; cases h
  | cons r rest ih =>
      intro s v raw pd hmem hpp hlk
      rw [List.foldl_cons, batchStep_store eop lookup s v r]
      rcases List.mem_cons.mp hmem with rfl | hmem2
      · have hstep : pd ∈ (batchStep eop lookup (s, v) raw).2 := by
          simp [batchStep, hpp, hlk]
        exact batch_fold_valid_mono eop lookup rest s _ pd hstep
      · exact ih s _ raw pd hmem2 hpp hlk

/-- When every processable record of the batch hits the bulk existence
    dict, the record loop is a no-op. -/
theorem batch_fold_allhit (eop : Bool) (lookup : String → Option DBProperty) :
    ∀ (l : List JVal) (s : Store),
    (∀ raw ∈ l, ∀ pd, processProperty raw = some pd →
        (lookup pd.fields.external_id).isSome = true) →
    l.foldl (batchStep eop lookup) (s, []) = (s, []) := by
  intro l
  induction l with
  | nil => intro s _; rfl
  | cons raw rest ih =>
      intro s hall
      rw [List.foldl_cons]
      have hstep : batchStep eop lookup (s, []) raw = (s, []) := by
        cases hpp : processProperty raw with
        | none => simp [batchStep, hpp]
        | some pd =>
            have hsome := hall raw (by simp) pd hpp
            cases hlk : lookup pd.fields.external_id with
            | none => rw [hlk] at hsome; simp at hsome
            | some ex => simp [batchStep, hpp, hlk, isOwnerListingFromDb]
      rw [hstep]
      exact ih s (fun raw2 h2 => hall raw2 (by simp [h2]))

/-- Under the no-failure oracle the bulk save mints one row per record,
    carrying that record's external id. -/
theorem savedProps_noFail_extids (ownerId now : ℕ) :
    ∀ (l : List (ℕ × PropertyData)) (startId : ℕ),
    (savedProps ownerId now noFail startId l).map (fun r => r.fields.external_id) =
      l.map (fun p => p.2.fields.external_id) := by
  intro l
  induction l with
  | nil => intro s; rfl
  | cons p rest ih =>
      intro s
      rw [savedProps, if_neg (by simp [noFail])]
      simp [ih, toDict_extid]

/-- Running the batch pipeline over a page changes nothing when every
    processable record of the page already has a stored row with its
    external id. -/
theorem ingestPass_noop (st1 : Store) (page : List JVal) (eop : Bool)
    (uid : ℕ) (now2 : ℕ)
    (hrows : ∀ raw ∈ seenFilter page, ∀ pd, processProperty raw = some pd →
      ∃ row ∈ st1.props, row.fields.external_id = pd.fields.external_id) :
    ingestPass st1 page eop uid noFail now2 = st1 := by
  have hfold : (seenFilter page).foldl
      (batchStep eop (existingLookup (st1.props.filter (fun p =>
        p.fields.external_id ∈ (seenFilter page).map (fun r => pyStr (r.get "id" (.str "")))))))
      (st1, []) = (st1, []) := by
    apply batch_fold_allhit
    intro raw hraw pd hpp
    obtain ⟨row, hrowmem, hrowext⟩ := hrows raw hraw pd hpp
    have hE : processPropertyE raw = Except.ok pd := by
      cases hE2 : processPropertyE raw with
      | ok pd2 =>
          simp only [processProperty, hE2, Option.some.injEq] at hpp
          subst hpp
          rfl
      | error e => simp [processProperty, hE2] at hpp
    have hext := processPropertyE_extid raw pd hE
    have hmemeids : pd.fields.external_id ∈
        (seenFilter page).map (fun r => pyStr (r.get "id" (.str ""))) := by
      rw [hext]
      exact List.mem_map_of_mem _ hraw
    have hfilter : row ∈ st1.props.filter (fun p =>
        p.fields.external_id ∈ (seenFilter page).map (fun r => pyStr (r.get "id" (.str "")))) := by
      rw [List.mem_filter]
      refine ⟨hrowmem, ?_⟩
      rw [decide_eq_true_eq, hrowext]
      exact hmemeids
    unfold existingLookup
    cases hfind : (st1.props.filter (fun p =>
        p.fields.external_id ∈ (seenFilter page).map (fun r =>
          pyStr (r.get "id" (.str ""))))).reverse.find?
        (fun p => p.fields.external_id == pd.fields.external_id) with
    | some ex => rfl
    | none =>
        exfalso
        rw [List.find?_eq_none] at hfind
        have h2 := hfind row (List.mem_reverse.mpr hfilter)
        apply h2
        rw [beq_iff_eq]
        exact hrowext
  show processSingleBatch st1 (seenFilter page) eop uid noFail now2 = st1
  simp only [processSingleBatch]
  rw [hfold]
  rfl

/-- After one ingestion pass, every processable record of the page has
    a stored row carrying its external id. -/
theorem ingestPass_provides (st : Store) (page : List JVal) (eop : Bool)
    (uid : ℕ) (now1 : ℕ) (raw : JVal) (pd : PropertyData)
    (hraw : raw ∈ seenFilter page) (hpp : processProperty raw = some pd) :
    ∃ row ∈ (ingestPass st page eop uid noFail now1).props,
      row.fields.external_id = pd.fields.external_id := by
  have hst1 : ingestPass st page eop uid noFail now1 =
      (if (((seenFilter page).foldl (batchStep eop (existingLookup (st.props.filter (fun p =>
            p.fields.external_id ∈ (seenFilter page).map (fun r =>
              pyStr (r.get "id" (.str ""))))))) (st, [])).2).isEmpty
       then st
       else (ultraFastBulkSave st
         (((seenFilter page).foldl (batchStep eop (existingLookup (st.props.filter (fun p =>
            p.fields.external_id ∈ (seenFilter page).map (fun r =>
              pyStr (r.get "id" (.str ""))))))) (st, [])).2)
         uid noFail now1).1) := by
    show processSingleBatch st (seenFilter page) eop uid noFail now1 = _
    simp only [processSingleBatch]
    rw [batch_fold_store]
  rw [hst1]
  obtain ⟨v1, hv1⟩ : ∃ v1, (((seenFilter page).foldl (batchStep eop (existingLookup
      (st.props.filter (fun p =>
        p.fields.external_id ∈ (seenFilter page).map (fun r =>
          pyStr (r.get "id" (.str ""))))))) (st, [])).2) = v1 := ⟨_, rfl⟩
  rw [hv1]
  cases hlk1 : existingLookup (st.props.filter (fun p =>
      p.fields.external_id ∈ (seenFilter page).map (fun r => pyStr (r.get "id" (.str "")))))
      pd.fields.external_id with
  | some ex =>
      have hexmem : ex ∈ (st.props.filter (fun p =>
          p.fields.external_id ∈ (seenFilter page).map (fun r =>
            pyStr (r.get "id" (.str ""))))).reverse := by
        unfold existingLookup at hlk1
        exact List.mem_of_find?_eq_some hlk1
      have hexst : ex ∈ st.props := List.mem_of_mem_filter (List.mem_reverse.mp hexmem)
      have hexeq : ex.fields.external_id = pd.fields.external_id := by
        unfold existingLookup at hlk1
        have h2 := List.find?_some hlk1
        rwa [beq_iff_eq] at h2
      split
      · exact ⟨ex, hexst, hexeq⟩
      · obtain ⟨e1, _, _⟩ := bulkSave_fold_spec uid now1 noFail v1.enum st 0
        refine ⟨ex, ?_, hexeq⟩
        show ex ∈ (v1.enum.foldl (bulkSaveStep uid noFail now1) (st, 0)).1.props
        rw [e1]
        exact List.mem_append_left _ hexst
  | none =>
      have hpdval : pd ∈ v1 :=
        hv1 ▸ batch_fold_captures eop _ (seenFilter page) st [] raw pd hraw hpp hlk1
      have hne : v1 ≠ [] := List.ne_nil_of_mem hpdval
      rw [if_neg (by simpa [List.isEmpty_iff] using hne)]
      obtain ⟨e1, _, _⟩ := bulkSave_fold_spec uid now1 noFail v1.enum st 0
      have hmap : (savedProps uid now1 noFail st.nextPropId v1.enum).map
            (fun r => r.fields.external_id) =
          v1.map (fun q => q.fields.external_id) := by
        rw [savedProps_noFail_extids]
        rw [show (fun (p : ℕ × PropertyData) => p.2.fields.external_id) =
            ((fun (q : PropertyData) => q.fields.external_id) ∘ Prod.snd) from rfl]
        rw [← List.map_map, List.enum_map_snd]
      have hmem2 : pd.fields.external_id ∈ (savedProps uid now1 noFail st.nextPropId v1.enum).map
          (fun r => r.fields.external_id) := by
        rw [hmap]
        exact List.mem_map_of_mem _ hpdval
      obtain ⟨row, hrowmem, hroweq⟩ := List.mem_map.mp hmem2
      refine ⟨row, ?_, hroweq⟩
      show row ∈ (v1.enum.foldl (bulkSaveStep uid noFail now1) (st, 0)).1.props
      rw [e1]
      exact List.mem_append_right _ hrowmem

/-- C6: ingestion is idempotent on a nominal run.  Running the batch
    pipeline (_scrape_properties seen filter + _process_single_batch)
    a second time over the same unchanged page, with no record save
    raising, yields no net change: the store after the second pass
    equals the store after the first, in record count, every stored
    field value and the owner/agency assignment.  (The conflict branch
    of the record loop never fires because _is_owner_listing_from_db
    is constantly true, and every record of the page is found by the
    second bulk existence check.) -/
theorem C6_ingest_idempotent (st : Store) (page : List JVal) (eop : Bool)
    (uid : ℕ) (now1 now2 : ℕ) :
    ingestPass (ingestPass st page eop uid noFail now1) page eop uid noFail now2 =
      ingestPass st page eop uid noFail now1 :=
  ingestPass_noop _ page eop uid now2
    (fun raw hraw pd hpp => ingestPass_provides st page eop uid now1 raw pd hraw hpp)

end RealEstate
